import Mathlib

/-!
Shallow embedding of the r0t0blocks falling-block puzzle core.

Sources embedded (paths relative to the repository root):
- `src/time.rs` — `Timer`, `BlinkAnimation`, `DelayedRepeat` (the engine's
  deferred-start timer family; the engine crate declares `pub mod time` whose
  file is the snapshot embedded here, the only one containing `DelayedRepeat`
  and `TimeAware`).  The older immediate-start `Timer` from `src/main.rs`
  lines 15-53 is embedded separately as `TimerI`.
- `blocks/src/blocks.rs` — `Frame`, `Field`, `State`, screens (the crate the
  game binary runs).
- `blocks/src/field.rs` — the refactored `Field` (bounds-checked
  `copy_frame`, counting `clean_filled_lines`).

Machine integers: the Rust `Number` type is `i32`; it is modelled as `Int`
(arithmetic in the embedded routines stays far from the `i32` range except
where a cast itself matters: the `as usize` cast in `blocks.rs`'s
`copy_frame` is modelled exactly, as reduction modulo 2^64).  `usize` loop
counters are modelled as `Nat`.  A Rust array read/write whose index can go
out of bounds (a panic) is modelled in `Option`, `none` meaning the panic;
reads that are provably in range for the 180-cell field are modelled with
`List.getD`.
-/

namespace R0t0


/-- `engine::geometry::Point` (`geometry.rs`): an integer pair. -/
structure Point where
  x : Int
  y : Int
deriving DecidableEq, Repr

namespace Point

/-- `Point::new`. -/
def new (x y : Int) : Point := ⟨x, y⟩

/-- `Point::add_x`. -/
def add_x (p : Point) (d : Int) : Point := ⟨p.x + d, p.y⟩

/-- `Point::add_y`. -/
def add_y (p : Point) (d : Int) : Point := ⟨p.x, p.y + d⟩

/-- `Point::sub_x`. -/
def sub_x (p : Point) (d : Int) : Point := ⟨p.x - d, p.y⟩

/-- `Point::sub_y`. -/
def sub_y (p : Point) (d : Int) : Point := ⟨p.x, p.y - d⟩

end Point

/-! ## `src/time.rs` — the deferred-start timer family -/

/-- `Timer` from `src/time.rs` lines 3-7: counter plus a deferred
assignment applied on the next `tick`. -/
structure Timer where
  period : Int
  current : Int
  next_current : Option Int
deriving DecidableEq, Repr

namespace Timer

/-- `Timer::new` (`src/time.rs` lines 10-16). -/
def new (period : Int) : Timer :=
  { period := period, current := period + 1, next_current := none }

/-- `Timer::tick` (`src/time.rs` lines 18-26). -/
def tick (t : Timer) : Timer :=
  let t :=
    match t.next_current with
    | some c => { t with current := c, next_current := none }
    | none => t
  if t.current ≤ t.period then { t with current := t.current + 1 } else t

/-- `Timer::is_triggered`. -/
def is_triggered (t : Timer) : Bool := t.current == t.period

/-- `Timer::is_not_triggered_yet`. -/
def is_not_triggered_yet (t : Timer) : Bool := t.current < t.period

/-- `Timer::is_started`. -/
def is_started (t : Timer) : Bool := t.is_not_triggered_yet || t.is_triggered

/-- `Timer::start`. -/
def start (t : Timer) : Timer := { t with next_current := some 0 }

/-- `Timer::stop`. -/
def stop (t : Timer) : Timer := { t with next_current := some (t.period + 1) }

/-- `n` consecutive `tick()` calls. -/
def tickN (t : Timer) : Nat → Timer
  | 0 => t
  | n + 1 => (t.tickN n).tick

end Timer

/-- The older immediate-start `Timer` from `src/main.rs` lines 15-53
(no deferred assignment: `start` and `stop` write `current` directly). -/
structure TimerI where
  period : Int
  current : Int
deriving DecidableEq, Repr

namespace TimerI

/-- `Timer::new` (`src/main.rs`). -/
def new (period : Int) : TimerI := { period := period, current := period + 1 }

/-- `Timer::tick` (`src/main.rs`). -/
def tick (t : TimerI) : TimerI :=
  if t.current ≤ t.period then { t with current := t.current + 1 } else t

/-- `Timer::is_triggered` (`src/main.rs`). -/
def is_triggered (t : TimerI) : Bool := t.current == t.period

/-- `Timer::is_not_triggered_yet` (`src/main.rs`). -/
def is_not_triggered_yet (t : TimerI) : Bool := t.current < t.period

/-- `Timer::is_started` (`src/main.rs`). -/
def is_started (t : TimerI) : Bool := t.is_not_triggered_yet || t.is_triggered

/-- `Timer::start` (`src/main.rs`). -/
def start (t : TimerI) : TimerI := { t with current := 0 }

/-- `Timer::stop` (`src/main.rs`). -/
def stop (t : TimerI) : TimerI := { t with current := t.period + 1 }

/-- `n` consecutive `tick()` calls. -/
def tickN (t : TimerI) : Nat → TimerI
  | 0 => t
  | n + 1 => (t.tickN n).tick

end TimerI

/-- `BlinkAnimation` (`src/time.rs` lines 49-53), over the deferred-start
`Timer`. -/
structure BlinkAnimation where
  timer : Timer
  changes_remain : Int
  show_ : Bool
deriving DecidableEq, Repr

namespace BlinkAnimation

/-- `BlinkAnimation::new`. -/
def new : BlinkAnimation :=
  { timer := Timer.new 15, changes_remain := 0, show_ := true }

/-- `BlinkAnimation::start`. -/
def start (b : BlinkAnimation) : BlinkAnimation :=
  { b with changes_remain := 6, show_ := false, timer := b.timer.start }

/-- `BlinkAnimation::stop`. -/
def stop (b : BlinkAnimation) : BlinkAnimation :=
  { b with timer := b.timer.stop, changes_remain := 0, show_ := true }

/-- `BlinkAnimation::tick` (`src/time.rs` lines 76-89). -/
def tick (b : BlinkAnimation) : BlinkAnimation :=
  let timer := b.timer.tick
  if timer.is_triggered then
    let show_ := !b.show_
    let changes_remain := b.changes_remain - 1
    if changes_remain > 0 then
      { timer := timer.start, changes_remain := changes_remain, show_ := show_ }
    else
      { timer := timer, changes_remain := changes_remain, show_ := true }
  else
    { b with timer := timer }

/-- `BlinkAnimation::is_show`. -/
def is_show (b : BlinkAnimation) : Bool := b.show_

/-- `BlinkAnimation::is_triggered`. -/
def is_triggered (b : BlinkAnimation) : Bool :=
  b.changes_remain == 0 && b.timer.is_triggered

/-- `BlinkAnimation::is_not_triggered_yet`. -/
def is_not_triggered_yet (b : BlinkAnimation) : Bool :=
  b.changes_remain != 0 || b.timer.is_not_triggered_yet

/-- `BlinkAnimation::is_started`. -/
def is_started (b : BlinkAnimation) : Bool :=
  b.is_not_triggered_yet || b.is_triggered

/-- `n` consecutive `tick()` calls. -/
def tickN (b : BlinkAnimation) : Nat → BlinkAnimation
  | 0 => b
  | n + 1 => (b.tickN n).tick

end BlinkAnimation

/-- `DelayedRepeat` (`src/time.rs` lines 113-116). -/
structure DelayedRepeat where
  delay : Timer
  repeat_ : Timer
deriving DecidableEq, Repr

namespace DelayedRepeat

/-- `DelayedRepeat::new`. -/
def new (delay rep : Int) : DelayedRepeat :=
  { delay := Timer.new delay, repeat_ := Timer.new rep }

/-- `DelayedRepeat::is_triggered`. -/
def is_triggered (d : DelayedRepeat) : Bool :=
  d.delay.is_triggered || d.repeat_.is_triggered

/-- `DelayedRepeat::tick` (`TimeAware` impl, `src/time.rs` lines 132-141). -/
def tick (d : DelayedRepeat) : DelayedRepeat :=
  let delay := d.delay.tick
  let rep := d.repeat_.tick
  if delay.is_triggered then { delay := delay, repeat_ := rep.start }
  else if rep.is_triggered then { delay := delay, repeat_ := rep.start }
  else { delay := delay, repeat_ := rep }

/-- `DelayedRepeat::start`. -/
def start (d : DelayedRepeat) : DelayedRepeat :=
  { delay := d.delay.start, repeat_ := d.repeat_.stop }

/-- `DelayedRepeat::stop`. -/
def stop (d : DelayedRepeat) : DelayedRepeat :=
  { delay := d.delay.stop, repeat_ := d.repeat_.stop }

/-- `DelayedRepeat::is_started`. -/
def is_started (d : DelayedRepeat) : Bool :=
  d.delay.is_started || d.repeat_.is_started

end DelayedRepeat

/-! ## `blocks/src/blocks.rs` — `Frame` and the shape catalog -/

/-- `Frame` (`blocks.rs` lines 15-17): a 4x4 boolean occupancy grid stored
flat, row-major (`index(x, y, 4) = x + y * 4`). -/
structure Frame where
  squares : List Bool
deriving DecidableEq, Repr

namespace Frame

/-- `Frame::new` (`blocks.rs` lines 174-188): flattens the 4x4 `u8` rows,
a cell being filled iff its entry is nonzero. -/
def new (rows : List (List Nat)) : Frame :=
  ⟨(rows.map (fun r => r.map (fun v => v != 0))).flatten⟩

/-- `Frame::is_filled` (`blocks.rs` lines 198-205).  The source guard is
`x < FRAME_SIDE || y < FRAME_SIDE` (an OR, as written); every embedded
caller passes `0 ≤ x, y < 4`, for which the read is in range, so the read
is modelled totally with `getD`. -/
def is_filled (fr : Frame) (p : Point) : Bool :=
  if 0 ≤ p.x ∧ 0 ≤ p.y then
    if p.x.toNat < 4 ∨ p.y.toNat < 4 then
      fr.squares.getD (p.x.toNat + p.y.toNat * 4) false
    else false
  else false

end Frame

/-- `create_frames` (`blocks.rs` lines 36-167, identical to
`blocks/src/tetromino.rs` lines 12-143): the static catalog of the seven
shapes' distinct rotation frames. -/
def create_frames : List (List Frame) :=
  [ [ Frame.new [[0,0,0,0],[0,0,0,0],[1,1,1,1],[0,0,0,0]],
      Frame.new [[0,1,0,0],[0,1,0,0],[0,1,0,0],[0,1,0,0]] ],
    [ Frame.new [[0,0,0,0],[0,0,0,0],[0,1,1,0],[0,1,1,0]] ],
    [ Frame.new [[0,0,0,0],[0,0,0,0],[1,1,1,0],[0,1,0,0]],
      Frame.new [[0,0,0,0],[0,1,0,0],[1,1,0,0],[0,1,0,0]],
      Frame.new [[0,0,0,0],[0,1,0,0],[1,1,1,0],[0,0,0,0]],
      Frame.new [[0,0,0,0],[0,1,0,0],[0,1,1,0],[0,1,0,0]] ],
    [ Frame.new [[0,0,0,0],[0,1,0,0],[0,1,0,0],[1,1,0,0]],
      Frame.new [[0,0,0,0],[1,0,0,0],[1,1,1,0],[0,0,0,0]],
      Frame.new [[0,0,0,0],[1,1,0,0],[1,0,0,0],[1,0,0,0]],
      Frame.new [[0,0,0,0],[1,1,1,0],[0,0,1,0],[0,0,0,0]] ],
    [ Frame.new [[0,0,0,0],[0,1,0,0],[0,1,0,0],[0,1,1,0]],
      Frame.new [[0,0,0,0],[0,0,0,0],[1,1,1,0],[1,0,0,0]],
      Frame.new [[0,0,0,0],[1,1,0,0],[0,1,0,0],[0,1,0,0]],
      Frame.new [[0,0,0,0],[0,0,1,0],[1,1,1,0],[0,0,0,0]] ],
    [ Frame.new [[0,0,0,0],[0,0,0,0],[0,1,1,0],[1,1,0,0]],
      Frame.new [[0,0,0,0],[1,0,0,0],[1,1,0,0],[0,1,0,0]] ],
    [ Frame.new [[0,0,0,0],[0,0,0,0],[1,1,0,0],[0,1,1,0]],
      Frame.new [[0,0,0,0],[0,1,0,0],[1,1,0,0],[1,0,0,0]] ] ]

/-- `Tetromino::new` (`blocks.rs` lines 23-34): four rotation slots filled
by indexing the distinct frames modulo their count.  The catalog's lists
are never empty, so the `getD` default frame is never used. -/
def Tetromino.new (frames : List Frame) : List Frame :=
  [ frames.getD (0 % frames.length) ⟨[]⟩,
    frames.getD (1 % frames.length) ⟨[]⟩,
    frames.getD (2 % frames.length) ⟨[]⟩,
    frames.getD (3 % frames.length) ⟨[]⟩ ]

/-- The `tetrominos` array built in `State::new` (`blocks.rs` lines
382-390): `Tetromino::new` applied to each catalog entry. -/
def tetrominos : List (List Frame) := create_frames.map Tetromino.new

/-! ## `blocks/src/blocks.rs` / `blocks/src/field.rs` — `Field` -/

/-- `Field` (`blocks.rs` lines 213-215): a 10x18 boolean grid stored flat,
row-major (`index(x, y, 10) = x + y * 10`), 180 cells when built by
`Field::new`. -/
structure Field where
  squares : List Bool
deriving DecidableEq, Repr

/-- The cell loop order of `copy_frame` / `is_collide`: `j` (the frame row)
outer, `i` (the frame column) inner, each `0..4`. -/
def cellPairs : List (Nat × Nat) :=
  (List.range 4).flatMap (fun j => (List.range 4).map (fun i => (i, j)))

namespace Field

/-- `Field::new` (`blocks.rs` lines 218-222). -/
def new : Field := ⟨List.replicate 180 false⟩

/-- `Field::is_filled` (`blocks.rs` lines 232-239, same text in `field.rs`
lines 29-36).  The source guard is `x < FIELD_WIDTH || y < FIELD_HEIGHT`
(an OR, as written); the guarded read `squares[x + y*10]` can therefore
still be out of range, which in Rust is a panic — modelled as `none`. -/
def is_filled (f : Field) (p : Point) : Option Bool :=
  if 0 ≤ p.x ∧ 0 ≤ p.y then
    if p.x.toNat < 10 ∨ p.y.toNat < 18 then
      f.squares.get? (p.x.toNat + p.y.toNat * 10)
    else some false
  else some false

/-- `Field::is_line_filled` (`blocks.rs` lines 241-253): for a row index in
`[0, 18)` the flat cells `y*10..y*10+10` are all read; on a 180-cell field
these reads are always in range, so they are modelled with `getD`. -/
def is_line_filled (f : Field) (y : Int) : Bool :=
  if 0 ≤ y then
    if y.toNat < 18 then
      (List.range 10).all (fun i => f.squares.getD (y.toNat * 10 + i) false)
    else false
  else false

/-- `Field::is_any_line_filled` (`blocks.rs` lines 255-262): the loop over
`y` with early return is a disjunction. -/
def is_any_line_filled (f : Field) : Bool :=
  (List.range 18).any (fun y => f.is_line_filled y)

/-- `Field::clear` (`blocks.rs` lines 348-350): `squares.fill(false)`. -/
def clear (f : Field) : Field := ⟨List.replicate f.squares.length false⟩

end Field

/-- One step of the row-copy loop in `clean_filled_lines`
(`field.rs` line 75 / `blocks.rs` line 276): after `n` steps the cells
`0..n` of row `dst` have been overwritten, in place, with the cells of row
`src`. -/
def copyRowAux (sq : List Bool) (src dst : Nat) : Nat → List Bool
  | 0 => sq
  | n + 1 =>
    let sq' := copyRowAux sq src dst n
    sq'.set (n + dst * 10) (sq'.getD (n + src * 10) false)

/-- The full row copy `for i in 0..FIELD_WIDTH { squares[index(i, dst)] =
squares[index(i, src)] }`. -/
def copyRow (sq : List Bool) (src dst : Nat) : List Bool :=
  copyRowAux sq src dst 10

/-- The mutable locals of `clean_filled_lines`. -/
structure CleanState where
  squares : List Bool
  first_write_line : Nat
  last_write_line : Nat
  filled_lines : Int
deriving Repr

/-- One iteration of the `loop` in `clean_filled_lines` (`field.rs` lines
66-90), for the already-decremented `read_line`. -/
def cleanIter (st : CleanState) (read_line : Nat) : CleanState :=
  if Field.is_line_filled ⟨st.squares⟩ read_line then
    { st with last_write_line := st.last_write_line - 1,
              filled_lines := st.filled_lines + 1 }
  else if st.last_write_line ≤ st.first_write_line then
    { st with squares := copyRow st.squares read_line st.first_write_line,
              first_write_line := st.first_write_line - 1,
              last_write_line := st.last_write_line - 1 }
  else if 0 < read_line then
    { st with first_write_line := read_line - 1,
              last_write_line := read_line }
  else st

/-- The `loop` of `clean_filled_lines`: `read_line` is decremented from 18
before each body and the loop breaks after processing row 0, so
`cleanRun st 18` processes rows 17, 16, …, 0. -/
def cleanRun (st : CleanState) : Nat → CleanState
  | 0 => st
  | r + 1 => cleanRun (cleanIter st r) r

/-- One step of the zero-fill loop at the end of `clean_filled_lines`:
after `n` steps the cells `0..n` of row `j` are `false`. -/
def zeroRowAux (sq : List Bool) (j : Nat) : Nat → List Bool
  | 0 => sq
  | n + 1 => (zeroRowAux sq j n).set (n + j * 10) false

/-- Zero-fill one row. -/
def zeroRow (sq : List Bool) (j : Nat) : List Bool := zeroRowAux sq j 10

/-- The final `for j in last_write_line..=first_write_line` zero-fill. -/
def zeroRows (sq : List Bool) (last first : Nat) : List Bool :=
  (List.range' last (first + 1 - last)).foldl zeroRow sq

namespace Field

/-- `Field::clean_filled_lines` (`field.rs` lines 61-100): bottom-to-top
scan excising filled rows, returning their count.  The `blocks.rs` copy
(lines 264-300) is textually identical except that it does not count and
returns nothing; its field effect is `(clean_filled_lines f).1`. -/
def clean_filled_lines (f : Field) : Field × Int :=
  let st := cleanRun
    { squares := f.squares, first_write_line := 17, last_write_line := 18,
      filled_lines := 0 } 18
  if st.last_write_line ≤ st.first_write_line then
    (⟨zeroRows st.squares st.last_write_line st.first_write_line⟩, st.filled_lines)
  else
    (⟨st.squares⟩, st.filled_lines)

end Field

/-- The two's-complement `as usize` cast of an `i32`-ranged value, as
performed in `blocks.rs`'s `copy_frame`: reduction modulo `2^64`, so a
negative coordinate becomes a huge index. -/
def usizeCast (n : Int) : Nat := (n % (2 : Int) ^ 64).toNat

/-- The cell loop of `Field::copy_frame` from `blocks.rs` lines 302-311:
for every filled frame cell the write `squares[index((i + p.x) as usize,
(j + p.y) as usize, 10)] = true` is UNCHECKED (the source carries a
`//TODO: do not panic`); an out-of-range index is a panic, modelled as
`none`. -/
def copyCellsB (fr : Frame) (p : Point) (sq : List Bool) :
    List (Nat × Nat) → Option (List Bool)
  | [] => some sq
  | (i, j) :: rest =>
    if fr.is_filled (Point.new i j) then
      let idx := usizeCast (i + p.x) + usizeCast (j + p.y) * 10
      if idx < sq.length then copyCellsB fr p (sq.set idx true) rest
      else none
    else copyCellsB fr p sq rest

/-- The cell loop of `Field::copy_frame` from `field.rs` lines 102-115: the
write happens only when `0 <= x < 10 && 0 <= y < 18`; out-of-bounds filled
cells are silently dropped. -/
def copyCellsC (fr : Frame) (p : Point) (sq : List Bool) :
    List (Nat × Nat) → List Bool
  | [] => sq
  | (i, j) :: rest =>
    if fr.is_filled (Point.new i j) then
      let x := i + p.x
      let y := j + p.y
      if 0 ≤ x ∧ x < 10 ∧ 0 ≤ y ∧ y < 18 then
        copyCellsC fr p (sq.set (x.toNat + y.toNat * 10) true) rest
      else copyCellsC fr p sq rest
    else copyCellsC fr p sq rest

namespace Field

/-- `Field::copy_frame`, the `blocks.rs` lines 302-311 version (the one the
game's `State` calls): unchecked writes, panic modelled as `none`. -/
def copy_frame (f : Field) (fr : Frame) (p : Point) : Option Field :=
  (copyCellsB fr p f.squares cellPairs).map Field.mk

/-- `Field::copy_frame`, the `field.rs` lines 102-115 version:
bounds-checked writes, total. -/
def copy_frame_checked (f : Field) (fr : Frame) (p : Point) : Field :=
  ⟨copyCellsC fr p f.squares cellPairs⟩

end Field

/-- The cell loop of `Field::is_collide` (`blocks.rs` lines 325-343, same
text in `field.rs`): early return on the first violating filled cell; the
`is_filled` read keeps the source's panic possibility (`none`). -/
def collideCells (f : Field) (fr : Frame) (x y : Int) :
    List (Nat × Nat) → Option Bool
  | [] => some false
  | (i, j) :: rest =>
    if fr.is_filled (Point.new i j) then
      if x + i < 0 then some true
      else if 10 ≤ x + i then some true
      else if 18 ≤ y + j then some true
      else
        match f.is_filled (Point.new (x + i) (y + j)) with
        | none => none
        | some true => some true
        | some false => collideCells f fr x y rest
    else collideCells f fr x y rest

namespace Field

/-- `Field::is_collide` (`blocks.rs` lines 313-346, same text in `field.rs`
lines 117-150): three bounding-box early returns, then the per-cell
checks. -/
def is_collide (f : Field) (fr : Frame) (p : Point) : Option Bool :=
  if p.x + 4 ≤ 0 then some true
  else if 10 ≤ p.x then some true
  else if 18 ≤ p.y then some true
  else collideCells f fr p.x p.y cellPairs

end Field

/-! ## `blocks/src/blocks.rs` — the game state machine -/

/-- The `Screen` enum (`blocks.rs` lines 548-554); `enum_dispatch` over unit
variants, compared by variant identity. -/
inductive Screen where
  | game
  | retry
  | pause
deriving DecidableEq, Repr

/-- The logical keys the `blocks.rs` screens query from `engine::input`. -/
inductive Key where
  | up
  | down
  | left
  | right
  | space
  | escape
  | equals
  | minus
  | v
  | r
deriving DecidableEq, Repr

/-- `engine::input::Input` as the screens consume it: the per-key edge
predicates `is_front_edge` / `is_back_edge` of this tick. -/
structure Input where
  front : Key → Bool
  back : Key → Bool

/-- `fastrand::Rng`, modelled as an arbitrary value stream with a cursor;
only the call `rng.usize(0..7)` occurs, whose range contract (a result in
`[0, 7)`) is modelled by reducing the drawn value mod 7. -/
structure Rng where
  stream : Nat → Nat
  pos : Nat

/-- One `rng.usize(0..7)` draw. -/
def Rng.usize7 (r : Rng) : Nat × Rng :=
  (r.stream r.pos % 7, { r with pos := r.pos + 1 })

/-- The game state (`blocks.rs` lines 353-374).  The `tetrominos` array is
always the one built from `create_frames` (see `tetrominos` above), and
`field_pos` is visualization-only data never read by the embedded logic;
both are left out of the record. -/
structure State where
  curr_frame : Nat
  curr_tet_index : Nat
  next_tet_index : Nat
  field : Field
  tet_pos : Point
  fall_timer : Timer
  filled_lines_animation : BlinkAnimation
  rng : Rng
  screen : Screen
  popup_screen : Option Screen
  left_repeater : DelayedRepeat
  right_repeater : DelayedRepeat
  down_repeater : DelayedRepeat

namespace State

/-- `State::spawn_pos` (`blocks.rs` lines 377-379). -/
def spawn_pos : Point := Point.new ((10 - 4) / 2) (-1)

/-- `State::current_frame` (`blocks.rs` lines 433-435): the double array
index, panic (`none`) when either index is out of range. -/
def current_frame (s : State) : Option Frame :=
  (tetrominos.get? s.curr_tet_index).bind (fun t => t.get? s.curr_frame)

/-- `State::next_tetromino` (`blocks.rs` lines 423-426). -/
def next_tetromino (s : State) : State :=
  { s with curr_tet_index := (s.curr_tet_index + 1) % tetrominos.length,
           curr_frame := 0 }

/-- `State::prev_tetromino` (`blocks.rs` lines 428-431). -/
def prev_tetromino (s : State) : State :=
  { s with curr_tet_index :=
             (tetrominos.length + s.curr_tet_index - 1) % tetrominos.length,
           curr_frame := 0 }

/-- `State::move_colliding_tetromino` (`blocks.rs` lines 451-459): no-op
while the blink animation is active; otherwise the permissive rule
`is_collide(current) || !is_collide(target)` commits the move. -/
def move_colliding_tetromino (s : State) (new_pos : Point) : Option State :=
  if s.filled_lines_animation.is_started then some s
  else do
    let fr ← s.current_frame
    let c1 ← s.field.is_collide fr s.tet_pos
    if c1 then some { s with tet_pos := new_pos }
    else
      let c2 ← s.field.is_collide fr new_pos
      if !c2 then some { s with tet_pos := new_pos } else some s

/-- `State::next_frame` (`blocks.rs` lines 461-463). -/
def next_frame (s : State) : Nat := (s.curr_frame + 1) % 4

/-- `State::rotate_colliding_tetromino` (`blocks.rs` lines 465-472): the
permissive rule again; note there is NO blink-animation guard here. -/
def rotate_colliding_tetromino (s : State) : Option State := do
  let new_frame_index := s.next_frame
  let new_frame ← (tetrominos.get? s.curr_tet_index).bind
    (fun t => t.get? new_frame_index)
  let fr ← s.current_frame
  let c1 ← s.field.is_collide fr s.tet_pos
  if c1 then some { s with curr_frame := new_frame_index }
  else
    let c2 ← s.field.is_collide new_frame s.tet_pos
    if !c2 then some { s with curr_frame := new_frame_index } else some s

/-- `GameScreen::enter` (`blocks.rs` lines 568-575). -/
def game_enter (s : State) : State :=
  let s := { s with fall_timer := s.fall_timer.start }
  let (c, rng) := s.rng.usize7
  let (n, rng) := rng.usize7
  { s with curr_tet_index := c, next_tet_index := n, curr_frame := 0,
           field := s.field.clear, tet_pos := spawn_pos, rng := rng }

/-- `PauseScreen::enter` (`blocks.rs` lines 720-724). -/
def pause_enter (s : State) : State :=
  { s with left_repeater := s.left_repeater.stop,
           right_repeater := s.right_repeater.stop,
           down_repeater := s.down_repeater.stop }

/-- `ScreenBehavior::enter` dispatch; `RetryScreen::enter` is a no-op. -/
def screen_enter (s : State) : Screen → State
  | .game => s.game_enter
  | .retry => s
  | .pause => s.pause_enter

/-- `State::change_screen` (`blocks.rs` lines 509-517): no-op when the new
screen equals the current one, otherwise replace and `enter`. -/
def change_screen (s : State) (new_screen : Screen) : State :=
  if s.screen = new_screen then s
  else screen_enter { s with screen := new_screen } new_screen

/-- `State::open_popup_screen` (`blocks.rs` lines 519-524). -/
def open_popup_screen (s : State) (popup : Screen) : State :=
  if s.popup_screen = none then
    screen_enter { s with popup_screen := some popup } popup
  else s

/-- `State::close_popup_screen` (`blocks.rs` lines 526-528). -/
def close_popup_screen (s : State) : State :=
  { s with popup_screen := none }

/-- `State::finish_turn` (`blocks.rs` lines 474-486). -/
def finish_turn (s : State) : Option State := do
  let s := { s with left_repeater := s.left_repeater.stop,
                    right_repeater := s.right_repeater.stop,
                    down_repeater := s.down_repeater.stop }
  let (n, rng) := s.rng.usize7
  let s := { s with curr_tet_index := s.next_tet_index, next_tet_index := n,
                    curr_frame := 0, tet_pos := spawn_pos, rng := rng }
  let fr ← s.current_frame
  let c ← s.field.is_collide fr s.tet_pos
  if c then some (s.change_screen .retry) else some s

/-- `State::move_down` (`blocks.rs` lines 488-507); the merge uses the
unchecked `blocks.rs` `copy_frame`. -/
def move_down (s : State) : Option State := do
  let fr ← s.current_frame
  let c ← s.field.is_collide fr s.tet_pos
  if c then some s
  else
    let new_pos := s.tet_pos.add_y 1
    let c2 ← s.field.is_collide fr new_pos
    if !c2 then some { s with tet_pos := new_pos }
    else do
      let fld ← s.field.copy_frame fr s.tet_pos
      let s := { s with field := fld }
      if s.field.is_any_line_filled then
        some { s with filled_lines_animation := s.filled_lines_animation.start,
                      fall_timer := s.fall_timer.stop }
      else s.finish_turn

/-- `GameScreen::handle_input` (`blocks.rs` lines 577-623).  The `V`
branch's `for y { if is_line_filled(y) { start; break } }` is the
disjunction `is_any_line_filled` guarding one `start`. -/
def game_handle_input (s : State) (inp : Input) : Option State :=
  let s := if inp.back .left then
    { s with left_repeater := s.left_repeater.stop } else s
  let s := if inp.back .right then
    { s with right_repeater := s.right_repeater.stop } else s
  let s := if inp.back .down then
    { s with down_repeater := s.down_repeater.stop } else s
  if inp.front .equals then some s.next_tetromino
  else if inp.front .minus then some s.prev_tetromino
  else if inp.front .space then s.rotate_colliding_tetromino
  else if inp.front .up then s.rotate_colliding_tetromino
  else if inp.front .down then do
    let s ← s.move_colliding_tetromino (s.tet_pos.add_y 1)
    some { s with down_repeater := s.down_repeater.start }
  else if inp.front .left then do
    let s ← s.move_colliding_tetromino (s.tet_pos.sub_x 1)
    some { s with left_repeater := s.left_repeater.start,
                  right_repeater := s.right_repeater.stop }
  else if inp.front .right then do
    let s ← s.move_colliding_tetromino (s.tet_pos.add_x 1)
    some { s with right_repeater := s.right_repeater.start,
                  left_repeater := s.left_repeater.stop }
  else if inp.front .v then do
    let fr ← s.current_frame
    let fld ← s.field.copy_frame fr s.tet_pos
    let s := { s with field := fld }
    if s.field.is_any_line_filled then
      some { s with filled_lines_animation := s.filled_lines_animation.start }
    else some s
  else if inp.front .r then
    some { s with field := (s.field.clean_filled_lines).1 }
  else if inp.front .escape then some (s.open_popup_screen .pause)
  else some s

/-- `GameScreen::tick` (`blocks.rs` lines 625-653): tick every timer, then
apply the four trigger reactions in order, each seeing the state left by
the previous one (explicit `Option.bind` chain; `none` = panic). -/
def game_tick (s : State) : Option State :=
  let s := { s with left_repeater := s.left_repeater.tick,
                    right_repeater := s.right_repeater.tick,
                    down_repeater := s.down_repeater.tick,
                    fall_timer := s.fall_timer.tick,
                    filled_lines_animation := s.filled_lines_animation.tick }
  Option.bind
    (if s.left_repeater.is_triggered then
      s.move_colliding_tetromino (s.tet_pos.sub_x 1)
    else some s) (fun s =>
  Option.bind
    (if s.right_repeater.is_triggered then
      s.move_colliding_tetromino (s.tet_pos.add_x 1)
    else some s) (fun s =>
  Option.bind
    (if s.down_repeater.is_triggered then
      s.move_colliding_tetromino (s.tet_pos.add_y 1)
    else some s) (fun s =>
  Option.bind
    (if s.filled_lines_animation.is_triggered then
      State.finish_turn { s with field := (s.field.clean_filled_lines).1,
                                 fall_timer := s.fall_timer.start }
    else some s) (fun s =>
  if s.fall_timer.is_triggered then
    State.move_down { s with fall_timer := s.fall_timer.start }
  else some s))))

/-- `RetryScreen::handle_input` (`blocks.rs` lines 700-704). -/
def retry_handle_input (s : State) (inp : Input) : State :=
  if inp.front .space then s.change_screen .game else s

/-- `PauseScreen::handle_input` (`blocks.rs` lines 726-730). -/
def pause_handle_input (s : State) (inp : Input) : State :=
  if inp.front .escape then s.close_popup_screen else s

/-- `App::handle_input` for `State` (`blocks.rs` lines 532-535):
dispatch to `popup_screen.unwrap_or(screen)`. -/
def handle_input (s : State) (inp : Input) : Option State :=
  match s.popup_screen.getD s.screen with
  | .game => game_handle_input s inp
  | .retry => some (retry_handle_input s inp)
  | .pause => some (pause_handle_input s inp)

/-- `App::tick` for `State` (`blocks.rs` lines 537-540); `RetryScreen::tick`
and `PauseScreen::tick` are no-ops. -/
def tick (s : State) : Option State :=
  match s.popup_screen.getD s.screen with
  | .game => game_tick s
  | .retry => some s
  | .pause => some s

/-- `State::new` (`blocks.rs` lines 381-421): the initial record followed by
`initial_screen.enter`. -/
def new (rng : Rng) : State :=
  let s : State :=
    { curr_frame := 0, curr_tet_index := 0, next_tet_index := 0,
      field := Field.new, tet_pos := Point.new 0 0,
      fall_timer := Timer.new 120,
      filled_lines_animation := BlinkAnimation.new,
      rng := rng, screen := .game, popup_screen := none,
      left_repeater := DelayedRepeat.new 30 5,
      right_repeater := DelayedRepeat.new 30 5,
      down_repeater := DelayedRepeat.new 30 3 }
  s.game_enter

end State

/-- The states a game can reach: `State::new` followed by any sequence of
`handle_input` and `tick` calls that do not panic (`draw` takes `&self`
and cannot change the state). -/
inductive Reachable : State → Prop
  | init (rng : Rng) : Reachable (State.new rng)
  | handle (s s' : State) (inp : Input) :
      Reachable s → s.handle_input inp = some s' → Reachable s'
  | tick (s s' : State) :
      Reachable s → s.tick = some s' → Reachable s'

/-! ## Scoring, modelled from the spec (C8) -/

/-- Modelled from the spec: no scoring implementation exists anywhere in
the repository sources (no `State` snapshot carries a score field, table or
clamp); spec section 4.5 "Scoring" defines the lines-cleared → score-delta
table `{0:0, 1:100, 2:250, 3:500, 4+:1000}`. -/
def score_delta (lines : Nat) : Nat :=
  match lines with
  | 0 => 0
  | 1 => 100
  | 2 => 250
  | 3 => 500
  | _ => 1000

/-- Modelled from the spec: the score cap 9,999,999 (spec section 4.5). -/
def max_score : Nat := 9999999

/-- Modelled from the spec: applying a score delta, clamped to the cap
(spec section 4.5: "score is clamped to a maximum (9,999,999) and never
decreases"). -/
def add_score (s d : Nat) : Nat := min (s + d) max_score

/-- Modelled from the spec: the score over a round, starting at 0, after a
sequence of line-clear compactions with the given cleared-line counts. -/
def round_score (clears : List Nat) : Nat :=
  clears.foldl (fun s l => add_score s (score_delta l)) 0

/-! ## Specification-side descriptions used to state the claims -/

/-- Row `y` of a flat 10-wide grid, as a 10-cell list. -/
def row (sq : List Bool) (y : Nat) : List Bool :=
  (List.range 10).map (fun i => sq.getD (y * 10 + i) false)

/-- The 18 rows of a flat field, top to bottom. -/
def rows_of (sq : List Bool) : List (List Bool) :=
  (List.range 18).map (row sq)

/-- An all-empty row. -/
def empty_row : List Bool := List.replicate 10 false

/-- The compaction the spec describes: keep the rows that are not fully
filled, in order, re-stacked at the bottom; empty rows above. -/
def compact_rows (rows : List (List Bool)) : List (List Bool) :=
  List.replicate (18 - (rows.filter (fun r => !r.all id)).length) empty_row
    ++ rows.filter (fun r => !r.all id)

/-- The number of fully filled rows with index in `[r, 18)`. -/
def cntFilled (sq : List Bool) (r : Nat) : Nat :=
  ((List.range' r (18 - r)).filter
    (fun (y : Nat) => Field.is_line_filled ⟨sq⟩ (y : Int))).length

/-- The indices of the rows in `[r, 18)` that are not fully filled, in
top-to-bottom order. -/
def keepRows (sq : List Bool) (r : Nat) : List Nat :=
  (List.range' r (18 - r)).filter
    (fun (y : Nat) => ! Field.is_line_filled ⟨sq⟩ (y : Int))

/-- The loop invariant of `clean_filled_lines`, holding just before the
iteration that processes row `r` (rows `r+1 .. 17` already processed):
the write cursors encode the number of filled rows seen so far, rows
`0 .. r` are untouched, and the non-filled rows seen so far sit
bottom-aligned from flat row `r + 1 + cntFilled` on, in original order. -/
def CleanInv (sq0 : List Bool) (r : Nat) (st : CleanState) : Prop :=
  st.squares.length = 180 ∧
  st.filled_lines = (cntFilled sq0 (r + 1) : Int) ∧
  st.first_write_line = r + cntFilled sq0 (r + 1) ∧
  st.last_write_line = r + 1 ∧
  (∀ y, y ≤ r → row st.squares y = row sq0 y) ∧
  (∀ m, m < (keepRows sq0 (r + 1)).length →
    row st.squares (r + 1 + cntFilled sq0 (r + 1) + m) =
      row sq0 ((keepRows sq0 (r + 1)).getD m 0))

/-- An all-filled field (for the claim's all-filled instance). -/
def field_full : Field := ⟨List.replicate 180 true⟩

/-- Spec side of C2: the in-bounds field cell `(x, y)` is filled. -/
def cell_filled (f : Field) (x y : Int) : Prop :=
  0 ≤ x ∧ x < 10 ∧ 0 ≤ y ∧ y < 18 ∧
    f.squares.getD (x.toNat + y.toNat * 10) false = true

/-- Spec side of C2: the collision condition as the claim words it. -/
def collide_spec (f : Field) (fr : Frame) (p : Point) : Prop :=
  p.x + 4 ≤ 0 ∨ 10 ≤ p.x ∨ 18 ≤ p.y ∨
    ∃ i : Nat, i < 4 ∧ ∃ j : Nat, j < 4 ∧
      fr.is_filled (Point.new i j) = true ∧
      (p.x + i < 0 ∨ 10 ≤ p.x + i ∨ 18 ≤ p.y + j ∨
        cell_filled f (p.x + i) (p.y + j))

/-- Spec side of C10: the index fields that drive the tetromino-array and
frame-array lookups are in bounds. -/
def inv (s : State) : Prop :=
  s.curr_tet_index < 7 ∧ s.next_tet_index < 7 ∧ s.curr_frame < 4

/-! ## Concrete demonstration data used by counterexamples and witnesses -/

/-- A concrete random stream (all zeros). -/
def rng0 : Rng := ⟨fun _ => 0, 0⟩

/-- A game-screen state whose line-clear blink animation is active:
the fields `State::new` would produce with piece 0 at the spawn position,
after `filled_lines_animation.start()`. -/
def anim_state : State :=
  { curr_frame := 0, curr_tet_index := 0, next_tet_index := 0,
    field := Field.new, tet_pos := State.spawn_pos,
    fall_timer := Timer.new 120,
    filled_lines_animation := BlinkAnimation.new.start,
    rng := rng0, screen := .game, popup_screen := none,
    left_repeater := DelayedRepeat.new 30 5,
    right_repeater := DelayedRepeat.new 30 5,
    down_repeater := DelayedRepeat.new 30 3 }

/-- The same state with the Pause popup open (and the animation idle). -/
def paused_state : State :=
  { anim_state with filled_lines_animation := BlinkAnimation.new,
                    popup_screen := some .pause }

/-- An input whose only edge is a front edge on Up (the rotate key). -/
def up_input : Input := ⟨fun k => k == .up, fun _ => false⟩

/-- An input with no edges at all. -/
def quiet_input : Input := ⟨fun _ => false, fun _ => false⟩

end R0t0

/-!
# Theorems
-/

namespace R0t0

/-! ## Helper lemmas: the deferred-start `Timer` -/

theorem Timer.tickN_start_eq (p : Int) (hp : 0 ≤ p) :
    ∀ k, 1 ≤ k → (Timer.new p).start.tickN k =
      { period := p, current := min (k : Int) (p + 1), next_current := none } := by
  intro k hk
  induction k with
  | zero => omega
  | succ n ih =>
    rcases Nat.eq_zero_or_pos n with h0 | hn
    · subst h0
      have hmin : min ((1 : Nat) : Int) (p + 1) = 1 := by
        rw [min_eq_left]
        · norm_num
        · push_cast; omega
      simp only [Timer.tickN, Timer.tick, Timer.start, Timer.new, hmin]
      simp [hp]
    · simp only [Timer.tickN, ih hn, Timer.tick]
      rcases le_or_lt ((n : Int)) p with h | h
      · have hmin : min ((n : Int)) (p + 1) = (n : Int) := by
          rw [min_eq_left]; omega
        have hmin2 : min (((n + 1 : Nat)) : Int) (p + 1) = (n : Int) + 1 :=
          min_eq_left (by push_cast; omega)
        simp only [hmin, hmin2]
        simp [h]
      · have hmin : min ((n : Int)) (p + 1) = p + 1 := by
          rw [min_eq_right]; omega
        have hgt : ¬ (p + 1 ≤ p) := by omega
        have hmin2 : min (((n + 1 : Nat)) : Int) (p + 1) = p + 1 :=
          min_eq_right (by push_cast; omega)
        simp only [hmin, hmin2]
        simp [hgt]

/-! ## Helper lemmas: `BlinkAnimation` -/

theorem BlinkAnimation.tickN_add (b : BlinkAnimation) (m n : Nat) :
    b.tickN (m + n) = (b.tickN m).tickN n := by
  induction n with
  | zero => rfl
  | succ k ih =>
    rw [Nat.add_succ]
    simp only [BlinkAnimation.tickN]
    rw [ih]

theorem BlinkAnimation.done_fixed :
    ∀ m, BlinkAnimation.tickN ⟨⟨15, 16, none⟩, 0, true⟩ m = ⟨⟨15, 16, none⟩, 0, true⟩ := by
  intro m
  induction m with
  | zero => rfl
  | succ k ih => simp only [BlinkAnimation.tickN, ih]; decide

set_option maxRecDepth 4000 in
theorem BlinkAnimation.start_tickN_91 :
    (BlinkAnimation.new.start).tickN 91 = ⟨⟨15, 16, none⟩, 0, true⟩ := by decide

set_option maxRecDepth 8000 in
theorem BlinkAnimation.start_tickN_bounded :
    ∀ k < 92, ((BlinkAnimation.new.start).tickN k).is_triggered = decide (k = 90) := by
  decide

/-! ## Claim theorems C3 and C6 -/

/-- C3, counterexample: for period 0, the deferred-start `Timer` of
`src/time.rs` is not triggered after `start()` and exactly 0 `tick()`
calls (the claim asserts it is); nor does it ever trigger on the following
ticks, because `start` only takes effect inside the next `tick`, whose
trailing increment immediately overshoots `period = 0`. -/
theorem c3_timer_period_zero_counterexample :
    ((Timer.new 0).start.tickN 0).is_triggered = false ∧
    ((Timer.new 0).start.tickN 1).is_triggered = false ∧
    ((Timer.new 0).start.tickN 2).is_triggered = false ∧
    ((Timer.new 0).start.tickN 3).is_triggered = false := by decide

/-- C3, amended: for the deferred-start `Timer` (`src/time.rs`) the claim
holds for every period p ≥ 1: a fresh timer is not started; after `start()`
and exactly p `tick()` calls `is_triggered()` is true, and was false after
each earlier tick; one further tick makes it neither triggered nor started,
and it stays so under further ticks.  (For p = 0 the timer never triggers,
see the counterexample; the immediate-start `Timer` of `src/main.rs` does
satisfy the original claim for every p ≥ 0.) -/
theorem c3_timer_deferred_ge_one (p : Nat) (hp : 1 ≤ p) :
    (Timer.new p).is_started = false ∧
    ((Timer.new p).start.tickN p).is_triggered = true ∧
    (∀ k < p, ((Timer.new p).start.tickN k).is_triggered = false) ∧
    (∀ m, ((Timer.new p).start.tickN (p + 1 + m)).is_triggered = false ∧
          ((Timer.new p).start.tickN (p + 1 + m)).is_started = false) := by
  have hp0 : (0 : Int) ≤ (p : Int) := by positivity
  refine ⟨?_, ?_, ?_, ?_⟩
  · simp [Timer.new, Timer.is_started, Timer.is_not_triggered_yet,
      Timer.is_triggered]
  · rw [Timer.tickN_start_eq (p : Int) hp0 p hp]
    have hmin : min ((p : Int)) ((p : Int) + 1) = (p : Int) := min_eq_left (by omega)
    simp [Timer.is_triggered, hmin]
  · intro k hk
    rcases Nat.eq_zero_or_pos k with h0 | h1
    · subst h0
      simp [Timer.tickN, Timer.start, Timer.new, Timer.is_triggered]
    · rw [Timer.tickN_start_eq (p : Int) hp0 k h1]
      have hmin : min ((k : Int)) ((p : Int) + 1) = (k : Int) :=
        min_eq_left (by omega)
      simp [Timer.is_triggered, hmin]
      omega
  · intro m
    have h1 : 1 ≤ p + 1 + m := by omega
    rw [Timer.tickN_start_eq (p : Int) hp0 (p + 1 + m) h1]
    have hmin : min (((p + 1 + m : Nat)) : Int) ((p : Int) + 1) = (p : Int) + 1 := by
      rw [min_eq_right]
      push_cast
      omega
    simp [Timer.is_triggered, Timer.is_started, Timer.is_not_triggered_yet, hmin]

/-- C3 witness, at period 3. -/
theorem c3_timer_deferred_ge_one_witness :
    1 ≤ 3 ∧
    ((Timer.new 3).is_started = false ∧
     ((Timer.new 3).start.tickN 3).is_triggered = true ∧
     (∀ k < 3, ((Timer.new 3).start.tickN k).is_triggered = false) ∧
     (∀ m, ((Timer.new 3).start.tickN (3 + 1 + m)).is_triggered = false ∧
           ((Timer.new 3).start.tickN (3 + 1 + m)).is_started = false)) :=
  ⟨by decide, c3_timer_deferred_ge_one 3 (by decide)⟩

set_option maxRecDepth 4000 in
/-- C6: after `BlinkAnimation::start()` and k consecutive `tick()` calls
(no other calls in between), `is_triggered()` is true exactly when k = 90
— six 15-tick half-cycles of the inner deferred-start timer — and on that
tick `show` has been forced to true; the finished signal fires exactly
once per start. -/
theorem c6_blink_triggers_once_at_90 (k : Nat) :
    (((BlinkAnimation.new.start).tickN k).is_triggered = true ↔ k = 90) ∧
    ((BlinkAnimation.new.start).tickN 90).is_show = true := by
  constructor
  · rcases lt_or_le k 92 with h | h
    · have := BlinkAnimation.start_tickN_bounded k h
      constructor
      · intro ht
        rw [ht] at this
        by_contra hne
        simp [hne] at this
      · intro hk
        subst hk
        simpa using this.symm
    · have hsplit : k = 91 + (k - 91) := by omega
      rw [hsplit, BlinkAnimation.tickN_add, BlinkAnimation.start_tickN_91,
        BlinkAnimation.done_fixed]
      constructor
      · intro ht
        exact absurd ht (by decide)
      · intro hk
        omega
  · decide

/-! ## Claim theorems C4 and C5 (code defects) -/

/-- C4: `Field::is_filled` is NOT total in the claim's sense.  Its bounds
guard is `x < 10 || y < 18` (OR instead of AND), so an out-of-range
coordinate slips through whenever the other one is small: `(10, 0)` reads
flat index 10 — which is cell `(0, 1)` — and returns that cell's value
instead of false, and `(0, 18)` reads flat index 180, out of bounds for
the 180-cell array, a panic in Rust (`none` here). -/
theorem c4_is_filled_or_guard_bug :
    Field.is_filled ⟨(List.replicate 180 false).set 10 true⟩ (Point.new 10 0) =
      some true ∧
    Field.is_filled Field.new (Point.new 0 18) = none := by decide

set_option maxRecDepth 100000 in
/-- C5: the active `copy_frame` (`blocks.rs` lines 302-311, the one
`State` calls) is NOT total: it writes `squares[(i + p.x) as usize + ...]`
unchecked, so an O piece merged at x = -2 casts the column -1 to a huge
usize and panics (`none`); the `field.rs` version at the same input
instead drops the two out-of-bounds cells and fills the two in-bounds
ones, exactly as the claim describes. -/
theorem c5_copy_frame_unchecked_panic :
    Field.copy_frame Field.new
      (Frame.new [[0,0,0,0],[0,0,0,0],[0,1,1,0],[0,1,1,0]])
      (Point.new (-2) 0) = none ∧
    Field.copy_frame_checked Field.new
      (Frame.new [[0,0,0,0],[0,0,0,0],[0,1,1,0],[0,1,1,0]])
      (Point.new (-2) 0) =
      ⟨((List.replicate 180 false).set 20 true).set 30 true⟩ := by decide

/-! ## Helper lemmas: scoring -/

theorem add_score_le_max (s d : Nat) : add_score s d ≤ max_score :=
  min_le_right _ _

theorem le_add_score (s d : Nat) (h : s ≤ max_score) : s ≤ add_score s d :=
  le_min (Nat.le_add_right s d) h

theorem score_foldl_le_max (l : List Nat) :
    ∀ s, s ≤ max_score →
      l.foldl (fun a b => add_score a (score_delta b)) s ≤ max_score := by
  induction l with
  | nil => intro s h; simpa using h
  | cons x xs ih =>
    intro s _
    simpa using ih (add_score s (score_delta x)) (add_score_le_max _ _)

theorem score_foldl_mono (l : List Nat) :
    ∀ s, s ≤ max_score →
      s ≤ l.foldl (fun a b => add_score a (score_delta b)) s := by
  induction l with
  | nil => intro s _; simp
  | cons x xs ih =>
    intro s h
    calc s ≤ add_score s (score_delta x) := le_add_score s _ h
    _ ≤ xs.foldl (fun a b => add_score a (score_delta b))
          (add_score s (score_delta x)) :=
        ih _ (add_score_le_max _ _)
    _ = (x :: xs).foldl (fun a b => add_score a (score_delta b)) s := by simp

/-- C8 (modelled from the spec, no scoring code exists in the repository):
a line-clear compaction adds exactly 0/100/250/500/1000 points for
0/1/2/3/at-least-4 cleared lines; over any round the score never exceeds
9,999,999 and never decreases. -/
theorem c8_scoring_table_and_clamp (clears more : List Nat) (n : Nat) :
    score_delta 0 = 0 ∧ score_delta 1 = 100 ∧ score_delta 2 = 250 ∧
    score_delta 3 = 500 ∧ score_delta (n + 4) = 1000 ∧
    round_score clears ≤ max_score ∧
    round_score clears ≤ round_score (clears ++ more) := by
  refine ⟨rfl, rfl, rfl, rfl, rfl, ?_, ?_⟩
  · exact score_foldl_le_max clears 0 (by simp [max_score])
  · unfold round_score
    rw [List.foldl_append]
    exact score_foldl_mono more _ (score_foldl_le_max clears 0 (by simp [max_score]))

/-- C9: while the Pause popup is open, `State::tick` is routed to
`PauseScreen::tick`, a no-op, so the whole state — field, piece, fall
timer, animation, repeaters — is exactly unchanged for arbitrarily many
ticks; `close_popup_screen` only clears the popup slot, so the fall timer
resumes from exactly the counter value it had when the popup opened. -/
theorem c9_pause_tick_frozen (s : State) (h : s.popup_screen = some Screen.pause) :
    s.tick = some s ∧
    s.close_popup_screen.fall_timer = s.fall_timer ∧
    s.close_popup_screen = { s with popup_screen := none } := by
  refine ⟨?_, rfl, rfl⟩
  simp [State.tick, h]

/-- C9 witness, on a concrete paused state. -/
theorem c9_pause_tick_frozen_witness :
    paused_state.popup_screen = some Screen.pause ∧
    (paused_state.tick = some paused_state ∧
     paused_state.close_popup_screen.fall_timer = paused_state.fall_timer ∧
     paused_state.close_popup_screen = { paused_state with popup_screen := none }) :=
  ⟨rfl, c9_pause_tick_frozen paused_state rfl⟩

/-! ## Helper lemmas: `Field` reads and `is_collide` (C2) -/

theorem getD_replicate_false (k : Nat) :
    (List.replicate 180 false).getD k false = false := by
  rw [List.getD_eq_getElem?_getD, List.getElem?_replicate]
  split <;> rfl

theorem Field.is_filled_inbounds (f : Field) (hlen : f.squares.length = 180)
    (x y : Int) (hx0 : 0 ≤ x) (hx : x < 10) (hy : y < 18) :
    ∃ b, f.is_filled (Point.new x y) = some b ∧ (b = true ↔ cell_filled f x y) := by
  rcases lt_or_le y 0 with hy0 | hy0
  · refine ⟨false, ?_, ?_⟩
    · unfold Field.is_filled
      have : ¬ (0 ≤ x ∧ 0 ≤ y) := by omega
      simp [Point.new, this]
    · simp only [Bool.false_eq_true, false_iff]
      intro hc
      obtain ⟨h1, h2, h3, h4, h5⟩ := hc
      exact absurd h3 (not_le.mpr hy0)
  · have hxn : x.toNat < 10 := by omega
    have hidx : x.toNat + y.toNat * 10 < 180 := by omega
    refine ⟨f.squares.getD (x.toNat + y.toNat * 10) false, ?_, ?_⟩
    · unfold Field.is_filled
      have hg : (0 ≤ x ∧ 0 ≤ y) := ⟨hx0, hy0⟩
      simp only [Point.new, hg, and_self, if_true, hxn, true_or, if_pos]
      rw [List.get?_eq_getElem?, List.getD_eq_getElem?_getD,
        List.getElem?_eq_getElem (by omega : x.toNat + y.toNat * 10 < f.squares.length)]
      rfl
    · unfold cell_filled
      constructor
      · intro hb
        exact ⟨hx0, hx, hy0, hy, hb⟩
      · intro hc
        exact hc.2.2.2.2

theorem collideCells_spec (f : Field) (fr : Frame) (x y : Int)
    (hlen : f.squares.length = 180) :
    ∀ l : List (Nat × Nat), ∃ b, collideCells f fr x y l = some b ∧
      (b = true ↔ ∃ c ∈ l, fr.is_filled (Point.new c.1 c.2) = true ∧
        (x + c.1 < 0 ∨ 10 ≤ x + c.1 ∨ 18 ≤ y + c.2 ∨
          cell_filled f (x + c.1) (y + c.2))) := by
  intro l
  induction l with
  | nil => exact ⟨false, rfl, by simp⟩
  | cons c rest ih =>
    obtain ⟨i, j⟩ := c
    obtain ⟨b, hb, hiff⟩ := ih
    by_cases hfr : fr.is_filled (Point.new i j) = true
    · by_cases h1 : x + (i : Int) < 0
      · refine ⟨true, ?_, ?_⟩
        · simp [collideCells, hfr, h1]
        · simp only [true_iff]
          exact ⟨(i, j), List.mem_cons_self _ _, hfr, Or.inl h1⟩
      · by_cases h2 : 10 ≤ x + (i : Int)
        · refine ⟨true, ?_, ?_⟩
          · simp [collideCells, hfr, h1, h2]
          · simp only [true_iff]
            exact ⟨(i, j), List.mem_cons_self _ _, hfr, Or.inr (Or.inl h2)⟩
        · by_cases h3 : 18 ≤ y + (j : Int)
          · refine ⟨true, ?_, ?_⟩
            · simp [collideCells, hfr, h1, h2, h3]
            · simp only [true_iff]
              exact ⟨(i, j), List.mem_cons_self _ _, hfr, Or.inr (Or.inr (Or.inl h3))⟩
          · obtain ⟨b0, hb0, hiff0⟩ :=
              Field.is_filled_inbounds f hlen (x + i) (y + j)
                (by omega) (by omega) (by omega)
            cases b0 with
            | true =>
              refine ⟨true, ?_, ?_⟩
              · simp [collideCells, hfr, h1, h2, h3, hb0]
              · simp only [true_iff]
                exact ⟨(i, j), List.mem_cons_self _ _, hfr,
                  Or.inr (Or.inr (Or.inr (hiff0.mp rfl)))⟩
            | false =>
              refine ⟨b, ?_, ?_⟩
              · simp [collideCells, hfr, h1, h2, h3, hb0, hb]
              · rw [hiff]
                constructor
                · intro ⟨c, hc, hviol⟩
                  exact ⟨c, List.mem_cons_of_mem _ hc, hviol⟩
                · intro ⟨c, hc, hviol⟩
                  rcases List.mem_cons.mp hc with hceq | hcmem
                  · subst hceq
                    rcases hviol.2 with hv | hv | hv | hv
                    · exact absurd hv h1
                    · exact absurd hv h2
                    · exact absurd hv h3
                    · exact absurd (hiff0.mpr hv) (by simp)
                  · exact ⟨c, hcmem, hviol⟩
    · refine ⟨b, ?_, ?_⟩
      · simp [collideCells, hfr, hb]
      · rw [hiff]
        constructor
        · intro ⟨c, hc, hviol⟩
          exact ⟨c, List.mem_cons_of_mem _ hc, hviol⟩
        · intro ⟨c, hc, hviol⟩
          rcases List.mem_cons.mp hc with hceq | hcmem
          · subst hceq
            exact absurd hviol.1 hfr
          · exact ⟨c, hcmem, hviol⟩

theorem mem_cellPairs (c : Nat × Nat) : c ∈ cellPairs ↔ c.1 < 4 ∧ c.2 < 4 := by
  obtain ⟨i, j⟩ := c
  simp only [cellPairs, List.mem_flatMap, List.mem_map, List.mem_range]
  constructor
  · rintro ⟨j0, hj0, i0, hi0, heq⟩
    injection heq with h1 h2
    subst h1
    subst h2
    exact ⟨hi0, hj0⟩
  · rintro ⟨hi, hj⟩
    exact ⟨j, hj, i, hi, rfl⟩

/-- C2: `Field::is_collide` returns (without panicking) true exactly when
the claim's condition holds: the bounding box is entirely left
(`x + 4 ≤ 0`), at/past the right edge (`x ≥ 10`), at/below the bottom
(`y ≥ 18`), or some filled frame cell `(i, j)` has `x+i < 0`, `x+i ≥ 10`,
`y+j ≥ 18`, or lands on an already-filled in-bounds field cell; filled
cells with `y+j < 0` never cause a collision, so a piece (a frame with at
least one filled cell) anchored at y = -2 whose filled cells' columns all
lie within `[0, 10)` does not collide on an empty field. -/
theorem c2_is_collide_spec_equiv (f : Field) (fr : Frame) (p : Point)
    (hlen : f.squares.length = 180) :
    (∃ b, f.is_collide fr p = some b ∧ (b = true ↔ collide_spec f fr p)) ∧
    (f = Field.new → p.y = -2 →
      (∃ i : Nat, i < 4 ∧ ∃ j : Nat, j < 4 ∧
        fr.is_filled (Point.new i j) = true) →
      (∀ i : Nat, i < 4 → ∀ j : Nat, j < 4 →
        fr.is_filled (Point.new i j) = true → 0 ≤ p.x + i ∧ p.x + i < 10) →
      f.is_collide fr p = some false) := by
  have hmain : ∃ b, f.is_collide fr p = some b ∧ (b = true ↔ collide_spec f fr p) := by
    unfold Field.is_collide
    by_cases h1 : p.x + 4 ≤ 0
    · exact ⟨true, by simp [h1], by simp [collide_spec, h1]⟩
    · by_cases h2 : (10 : Int) ≤ p.x
      · exact ⟨true, by simp [h1, h2], by simp [collide_spec, h2]⟩
      · by_cases h3 : (18 : Int) ≤ p.y
        · exact ⟨true, by simp [h1, h2, h3], by simp [collide_spec, h3]⟩
        · obtain ⟨b, hb, hiff⟩ := collideCells_spec f fr p.x p.y hlen cellPairs
          refine ⟨b, by simp [h1, h2, h3, hb], ?_⟩
          rw [hiff]
          unfold collide_spec
          simp only [h1, h2, h3, false_or]
          constructor
          · rintro ⟨⟨i, j⟩, hmem, hfr, hviol⟩
            obtain ⟨hi, hj⟩ := (mem_cellPairs (i, j)).mp hmem
            exact ⟨i, hi, j, hj, hfr, hviol⟩
          · rintro ⟨i, hi, j, hj, hfr, hviol⟩
            exact ⟨(i, j), (mem_cellPairs (i, j)).mpr ⟨hi, hj⟩, hfr, hviol⟩
  refine ⟨hmain, ?_⟩
  intro hf hy hex hall
  obtain ⟨b, hb, hiff⟩ := hmain
  have hnospec : ¬ collide_spec f fr p := by
    intro hspec
    obtain ⟨i0, hi0, j0, hj0, hfr0⟩ := hex
    rcases hspec with hs | hs | hs | ⟨i, hi, j, hj, hfr, hviol⟩
    · obtain ⟨hge, _⟩ := hall i0 hi0 j0 hj0 hfr0
      omega
    · obtain ⟨_, hlt⟩ := hall i0 hi0 j0 hj0 hfr0
      omega
    · omega
    · obtain ⟨hge, hlt⟩ := hall i hi j hj hfr
      rcases hviol with hv | hv | hv | hv
      · omega
      · omega
      · omega
      · obtain ⟨_, _, _, _, hcell⟩ := hv
        rw [hf] at hcell
        rw [show Field.new.squares = List.replicate 180 false from rfl] at hcell
        rw [getD_replicate_false] at hcell
        exact Bool.false_ne_true hcell
  cases b with
  | true => exact absurd (hiff.mp rfl) hnospec
  | false => exact hb


set_option maxRecDepth 40000 in
/-- C2 witness: the horizontal I piece on the empty field at (3, -2). -/
theorem c2_is_collide_spec_equiv_witness :
    Field.new.squares.length = 180 ∧
    ((∃ b, Field.new.is_collide
        (Frame.new [[0,0,0,0],[0,0,0,0],[1,1,1,1],[0,0,0,0]])
        (Point.new 3 (-2)) = some b ∧
      (b = true ↔ collide_spec Field.new
        (Frame.new [[0,0,0,0],[0,0,0,0],[1,1,1,1],[0,0,0,0]])
        (Point.new 3 (-2)))) ∧
    (Field.new = Field.new → (Point.new 3 (-2)).y = -2 →
      (∃ i : Nat, i < 4 ∧ ∃ j : Nat, j < 4 ∧
        (Frame.new [[0,0,0,0],[0,0,0,0],[1,1,1,1],[0,0,0,0]]).is_filled
          (Point.new i j) = true) →
      (∀ i : Nat, i < 4 → ∀ j : Nat, j < 4 →
        (Frame.new [[0,0,0,0],[0,0,0,0],[1,1,1,1],[0,0,0,0]]).is_filled
          (Point.new i j) = true →
        0 ≤ (Point.new 3 (-2)).x + i ∧ (Point.new 3 (-2)).x + i < 10) →
      Field.new.is_collide
        (Frame.new [[0,0,0,0],[0,0,0,0],[1,1,1,1],[0,0,0,0]])
        (Point.new 3 (-2)) = some false)) :=
  ⟨by decide,
    c2_is_collide_spec_equiv Field.new
      (Frame.new [[0,0,0,0],[0,0,0,0],[1,1,1,1],[0,0,0,0]])
      (Point.new 3 (-2)) (by decide)⟩


/-! ## Helper lemmas: the game state machine -/

theorem State.move_colliding_during_blink (s : State) (q : Point)
    (h : s.filled_lines_animation.is_started = true) :
    s.move_colliding_tetromino q = some s := by
  simp [State.move_colliding_tetromino, h]

theorem State.rotate_tet_pos_eq (s s2 : State)
    (h : s.rotate_colliding_tetromino = some s2) : s2.tet_pos = s.tet_pos := by
  simp only [State.rotate_colliding_tetromino, Option.bind_eq_bind',
    Option.bind_eq_some] at h
  obtain ⟨nf, h1, fr, h2, c1, h3, h4⟩ := h
  split at h4
  · injection h4 with h4
    subst h4
    rfl
  · simp only [Option.bind_eq_bind', Option.bind_eq_some] at h4
    obtain ⟨c2, h5, h6⟩ := h4
    split at h6 <;> (injection h6 with h6; subst h6; rfl)
theorem State.open_popup_pause_tet_pos (s : State) :
    (s.open_popup_screen .pause).tet_pos = s.tet_pos := by
  unfold State.open_popup_screen State.screen_enter State.pause_enter
  split <;> rfl

theorem State.move_colliding_blink_eq (s : State) (q : Point) (s4 : State)
    (h : s.move_colliding_tetromino q = some s4)
    (hanim : s.filled_lines_animation.is_started = true) : s4 = s := by
  rw [State.move_colliding_during_blink s q hanim] at h
  exact (Option.some.inj h).symm

set_option maxHeartbeats 2000000 in
/-- C7 (amended): while the line-clear blink animation is active, handling
any input on the Game screen leaves the falling piece's position `tet_pos`
unchanged (movement is gated by `move_colliding_tetromino`'s animation
check) — but rotation is NOT disabled: `rotate_colliding_tetromino` has no
such check, so `curr_frame` can change during the animation (see the
counterexample). -/
theorem c7_movement_locked_during_blink (s : State) (inp : Input) (s2 : State)
    (hanim : s.filled_lines_animation.is_started = true)
    (hgame : s.popup_screen.getD s.screen = Screen.game)
    (h : s.handle_input inp = some s2) :
    s2.tet_pos = s.tet_pos := by
  unfold State.handle_input at h
  rw [hgame] at h
  change State.game_handle_input s inp = some s2 at h
  unfold State.game_handle_input at h
  cases hb1 : inp.back Key.left <;> cases hb2 : inp.back Key.right <;>
    cases hb3 : inp.back Key.down <;>
    simp only [hb1, hb2, hb3, Bool.false_eq_true, if_false, if_true, ite_true,
      ite_false] at h
  all_goals (cases hf1 : inp.front Key.equals <;>
    try simp only [hf1, Bool.false_eq_true, if_false, if_true, ite_true,
      ite_false] at h)
  all_goals (try
    (injection h with h
     subst h
     rfl))
  all_goals (cases hf2 : inp.front Key.minus <;>
    try simp only [hf2, Bool.false_eq_true, if_false, if_true, ite_true,
      ite_false] at h)
  all_goals (try
    (injection h with h
     subst h
     rfl))
  all_goals (cases hf3 : inp.front Key.space <;>
    try simp only [hf3, Bool.false_eq_true, if_false, if_true, ite_true,
      ite_false] at h)
  all_goals (try
    (have hres := State.rotate_tet_pos_eq _ _ h
     exact hres))
  all_goals (cases hf4 : inp.front Key.up <;>
    try simp only [hf4, Bool.false_eq_true, if_false, if_true, ite_true,
      ite_false] at h)
  all_goals (try
    (have hres := State.rotate_tet_pos_eq _ _ h
     exact hres))
  all_goals (cases hf5 : inp.front Key.down <;>
    try simp only [hf5, Bool.false_eq_true, if_false, if_true, ite_true,
      ite_false] at h)
  all_goals (try
    (simp only [Option.bind_eq_bind', Option.bind_eq_some] at h
     obtain ⟨s4, hm, h2⟩ := h
     obtain rfl := State.move_colliding_blink_eq _ _ _ hm (by exact hanim)
     injection h2 with h2
     subst h2
     rfl))
  all_goals (cases hf6 : inp.front Key.left <;>
    try simp only [hf6, Bool.false_eq_true, if_false, if_true, ite_true,
      ite_false] at h)
  all_goals (try
    (simp only [Option.bind_eq_bind', Option.bind_eq_some] at h
     obtain ⟨s4, hm, h2⟩ := h
     obtain rfl := State.move_colliding_blink_eq _ _ _ hm (by exact hanim)
     injection h2 with h2
     subst h2
     rfl))
  all_goals (cases hf7 : inp.front Key.right <;>
    try simp only [hf7, Bool.false_eq_true, if_false, if_true, ite_true,
      ite_false] at h)
  all_goals (try
    (simp only [Option.bind_eq_bind', Option.bind_eq_some] at h
     obtain ⟨s4, hm, h2⟩ := h
     obtain rfl := State.move_colliding_blink_eq _ _ _ hm (by exact hanim)
     injection h2 with h2
     subst h2
     rfl))
  all_goals (cases hf8 : inp.front Key.v <;>
    try simp only [hf8, Bool.false_eq_true, if_false, if_true, ite_true,
      ite_false] at h)
  all_goals (try
    (simp only [Option.bind_eq_bind', Option.bind_eq_some] at h
     obtain ⟨fr, h1, fld, h2, h3⟩ := h
     split at h3 <;> (injection h3 with h3; subst h3; rfl)))
  all_goals (cases hf9 : inp.front Key.r <;>
    try simp only [hf9, Bool.false_eq_true, if_false, if_true, ite_true,
      ite_false] at h)
  all_goals (try
    (injection h with h
     subst h
     rfl))
  all_goals (cases hf10 : inp.front Key.escape <;>
    try simp only [hf10, Bool.false_eq_true, if_false, if_true, ite_true,
      ite_false] at h)
  all_goals (try
    (injection h with h
     subst h
     exact State.open_popup_pause_tet_pos _))
  all_goals
    (injection h with h
     subst h
     rfl)


/-- C7, counterexample: on a Game-screen state whose blink animation is
active, a front edge on Up rotates the falling piece: `curr_frame` goes
from 0 to 1, so rotation is not disabled during the animation (the claim
says it is). -/
theorem c7_rotation_during_blink_counterexample :
    anim_state.filled_lines_animation.is_started = true ∧
    anim_state.popup_screen.getD anim_state.screen = Screen.game ∧
    anim_state.curr_frame = 0 ∧
    (anim_state.handle_input up_input).map State.curr_frame = some 1 := by
  refine ⟨by decide, rfl, rfl, ?_⟩
  rfl

/-- C7 witness, on a concrete animated state with an edge-free input. -/
theorem c7_movement_locked_during_blink_witness :
    anim_state.filled_lines_animation.is_started = true ∧
    anim_state.popup_screen.getD anim_state.screen = Screen.game ∧
    anim_state.handle_input quiet_input = some anim_state ∧
    anim_state.tet_pos = anim_state.tet_pos :=
  ⟨by decide, rfl, rfl,
    c7_movement_locked_during_blink anim_state quiet_input anim_state
      (by decide) rfl rfl⟩

/-! ## Helper lemmas: reachable-state index bounds (C10) -/

theorem tetrominos_length : tetrominos.length = 7 := rfl

theorem tetro_get (k : Nat) (hk : k < 7) :
    ∃ t, tetrominos.get? k = some t ∧ t.length = 4 := by
  interval_cases k <;> exact ⟨_, rfl, rfl⟩

theorem State.move_coll_idx (s : State) (q : Point) (s2 : State)
    (h : s.move_colliding_tetromino q = some s2) :
    s2.curr_tet_index = s.curr_tet_index ∧
    s2.next_tet_index = s.next_tet_index ∧
    s2.curr_frame = s.curr_frame := by
  unfold State.move_colliding_tetromino at h
  split at h
  · injection h with h; subst h; exact ⟨rfl, rfl, rfl⟩
  · simp only [Option.bind_eq_bind', Option.bind_eq_some] at h
    obtain ⟨fr, h1, c1, h2, h3⟩ := h
    split at h3
    · injection h3 with h3; subst h3; exact ⟨rfl, rfl, rfl⟩
    · simp only [Option.bind_eq_bind', Option.bind_eq_some] at h3
      obtain ⟨c2, h4, h5⟩ := h3
      split at h5 <;> (injection h5 with h5; subst h5; exact ⟨rfl, rfl, rfl⟩)

theorem State.rotate_inv (s : State) (s2 : State)
    (h : s.rotate_colliding_tetromino = some s2) (hinv : inv s) : inv s2 := by
  have hmod : (s.curr_frame + 1) % 4 < 4 := Nat.mod_lt _ (by norm_num)
  simp only [State.rotate_colliding_tetromino, State.next_frame,
    Option.bind_eq_bind', Option.bind_eq_some] at h
  obtain ⟨nf, h1, fr, h2, c1, h3, h4⟩ := h
  split at h4
  · injection h4 with h4; subst h4; exact ⟨hinv.1, hinv.2.1, hmod⟩
  · simp only [Option.bind_eq_bind', Option.bind_eq_some] at h4
    obtain ⟨c2, h5, h6⟩ := h4
    split at h6 <;> (injection h6 with h6; subst h6)
    · exact ⟨hinv.1, hinv.2.1, hmod⟩
    · exact hinv

theorem State.game_enter_inv (s : State) : inv s.game_enter := by
  unfold State.game_enter Rng.usize7
  refine ⟨Nat.mod_lt _ (by norm_num), Nat.mod_lt _ (by norm_num), by norm_num⟩

theorem State.change_screen_inv (s : State) (sc : Screen) (hinv : inv s) :
    inv (s.change_screen sc) := by
  unfold State.change_screen State.screen_enter
  split
  · exact hinv
  · cases sc
    · exact State.game_enter_inv _
    · exact hinv
    · exact hinv

theorem State.finish_turn_inv (s : State) (s2 : State)
    (h : s.finish_turn = some s2) (hinv : inv s) : inv s2 := by
  unfold State.finish_turn Rng.usize7 at h
  simp only [Option.bind_eq_bind', Option.bind_eq_some] at h
  obtain ⟨fr, h1, c1, h2, h3⟩ := h
  have hbase : inv
      { curr_frame := 0, curr_tet_index := s.next_tet_index,
        next_tet_index := s.rng.stream s.rng.pos % 7, field := s.field,
        tet_pos := State.spawn_pos, fall_timer := s.fall_timer,
        filled_lines_animation := s.filled_lines_animation,
        rng := { stream := s.rng.stream, pos := s.rng.pos + 1 },
        screen := s.screen, popup_screen := s.popup_screen,
        left_repeater := s.left_repeater.stop,
        right_repeater := s.right_repeater.stop,
        down_repeater := s.down_repeater.stop } :=
    ⟨hinv.2.1, Nat.mod_lt _ (by norm_num), by norm_num⟩
  split at h3 <;> (injection h3 with h3; subst h3)
  · exact State.change_screen_inv _ _ hbase
  · exact hbase

theorem State.move_down_inv (s : State) (s2 : State)
    (h : s.move_down = some s2) (hinv : inv s) : inv s2 := by
  unfold State.move_down at h
  simp only [Option.bind_eq_bind', Option.bind_eq_some] at h
  obtain ⟨fr, h1, c1, h2, h3⟩ := h
  split at h3
  · injection h3 with h3; subst h3; exact hinv
  · simp only [Option.bind_eq_bind', Option.bind_eq_some] at h3
    obtain ⟨c2, h4, h5⟩ := h3
    split at h5
    · injection h5 with h5; subst h5; exact hinv
    · simp only [Option.bind_eq_bind', Option.bind_eq_some] at h5
      obtain ⟨fld, h6, h7⟩ := h5
      split at h7
      · injection h7 with h7; subst h7; exact hinv
      · exact State.finish_turn_inv _ _ h7 hinv

theorem State.open_popup_inv (s : State) (sc : Screen) (hinv : inv s) :
    inv (s.open_popup_screen sc) := by
  unfold State.open_popup_screen State.screen_enter
  split
  · cases sc
    · exact State.game_enter_inv _
    · exact hinv
    · exact hinv
  · exact hinv

theorem State.next_tetromino_inv (s : State) (hinv : inv s) :
    inv s.next_tetromino := by
  unfold State.next_tetromino
  refine ⟨?_, hinv.2.1, by norm_num⟩
  have h := Nat.mod_lt (s.curr_tet_index + 1)
    (show 0 < tetrominos.length by decide)
  simpa [tetrominos_length] using h

theorem State.prev_tetromino_inv (s : State) (hinv : inv s) :
    inv s.prev_tetromino := by
  unfold State.prev_tetromino
  refine ⟨?_, hinv.2.1, by norm_num⟩
  have h := Nat.mod_lt (tetrominos.length + s.curr_tet_index - 1)
    (show 0 < tetrominos.length by decide)
  simpa [tetrominos_length] using h

set_option maxHeartbeats 2000000 in
theorem State.game_handle_input_inv (s : State) (inp : Input) (s2 : State)
    (h : State.game_handle_input s inp = some s2) (hinv : inv s) : inv s2 := by
  unfold State.game_handle_input at h
  cases hb1 : inp.back Key.left <;> cases hb2 : inp.back Key.right <;>
    cases hb3 : inp.back Key.down <;>
    simp only [hb1, hb2, hb3, Bool.false_eq_true, if_false, if_true, ite_true,
      ite_false] at h
  all_goals (cases hf1 : inp.front Key.equals <;>
    try simp only [hf1, Bool.false_eq_true, if_false, if_true, ite_true,
      ite_false] at h)
  all_goals (try
    (injection h with h
     subst h
     exact State.next_tetromino_inv _ hinv))
  all_goals (cases hf2 : inp.front Key.minus <;>
    try simp only [hf2, Bool.false_eq_true, if_false, if_true, ite_true,
      ite_false] at h)
  all_goals (try
    (injection h with h
     subst h
     exact State.prev_tetromino_inv _ hinv))
  all_goals (cases hf3 : inp.front Key.space <;>
    try simp only [hf3, Bool.false_eq_true, if_false, if_true, ite_true,
      ite_false] at h)
  all_goals (try
    (have hres := State.rotate_inv _ _ h (by exact hinv)
     exact hres))
  all_goals (cases hf4 : inp.front Key.up <;>
    try simp only [hf4, Bool.false_eq_true, if_false, if_true, ite_true,
      ite_false] at h)
  all_goals (try
    (have hres := State.rotate_inv _ _ h (by exact hinv)
     exact hres))
  all_goals (cases hf5 : inp.front Key.down <;>
    try simp only [hf5, Bool.false_eq_true, if_false, if_true, ite_true,
      ite_false] at h)
  all_goals (try
    (simp only [Option.bind_eq_bind', Option.bind_eq_some] at h
     obtain ⟨s4, hm, h2⟩ := h
     obtain ⟨e1, e2, e3⟩ := State.move_coll_idx _ _ _ hm
     injection h2 with h2
     subst h2
     obtain ⟨v1, v2, v3⟩ := hinv
     exact ⟨by rw [e1]; exact v1, by rw [e2]; exact v2, by rw [e3]; exact v3⟩))
  all_goals (cases hf6 : inp.front Key.left <;>
    try simp only [hf6, Bool.false_eq_true, if_false, if_true, ite_true,
      ite_false] at h)
  all_goals (try
    (simp only [Option.bind_eq_bind', Option.bind_eq_some] at h
     obtain ⟨s4, hm, h2⟩ := h
     obtain ⟨e1, e2, e3⟩ := State.move_coll_idx _ _ _ hm
     injection h2 with h2
     subst h2
     obtain ⟨v1, v2, v3⟩ := hinv
     exact ⟨by rw [e1]; exact v1, by rw [e2]; exact v2, by rw [e3]; exact v3⟩))
  all_goals (cases hf7 : inp.front Key.right <;>
    try simp only [hf7, Bool.false_eq_true, if_false, if_true, ite_true,
      ite_false] at h)
  all_goals (try
    (simp only [Option.bind_eq_bind', Option.bind_eq_some] at h
     obtain ⟨s4, hm, h2⟩ := h
     obtain ⟨e1, e2, e3⟩ := State.move_coll_idx _ _ _ hm
     injection h2 with h2
     subst h2
     obtain ⟨v1, v2, v3⟩ := hinv
     exact ⟨by rw [e1]; exact v1, by rw [e2]; exact v2, by rw [e3]; exact v3⟩))
  all_goals (cases hf8 : inp.front Key.v <;>
    try simp only [hf8, Bool.false_eq_true, if_false, if_true, ite_true,
      ite_false] at h)
  all_goals (try
    (simp only [Option.bind_eq_bind', Option.bind_eq_some] at h
     obtain ⟨fr, h1, fld, h2, h3⟩ := h
     split at h3 <;> (injection h3 with h3; subst h3; exact ⟨hinv.1, hinv.2.1, hinv.2.2⟩)))
  all_goals (cases hf9 : inp.front Key.r <;>
    try simp only [hf9, Bool.false_eq_true, if_false, if_true, ite_true,
      ite_false] at h)
  all_goals (try
    (injection h with h
     subst h
     exact ⟨hinv.1, hinv.2.1, hinv.2.2⟩))
  all_goals (cases hf10 : inp.front Key.escape <;>
    try simp only [hf10, Bool.false_eq_true, if_false, if_true, ite_true,
      ite_false] at h)
  all_goals
    (injection h with h
     subst h
     first
       | exact ⟨hinv.1, hinv.2.1, hinv.2.2⟩
       | exact State.open_popup_inv _ _ (by exact hinv))

theorem State.game_tick_inv (s : State) (s2 : State)
    (h : State.game_tick s = some s2) (hinv : inv s) : inv s2 := by
  unfold State.game_tick at h
  simp only [Option.bind_eq_some] at h
  obtain ⟨sa, ha, h⟩ := h
  obtain ⟨sb, hb, h⟩ := h
  obtain ⟨sc, hc, h⟩ := h
  obtain ⟨sd, hd, h⟩ := h
  have hia : inv sa := by
    split at ha
    · obtain ⟨e1, e2, e3⟩ := State.move_coll_idx _ _ _ ha
      exact ⟨by rw [e1]; exact hinv.1, by rw [e2]; exact hinv.2.1,
        by rw [e3]; exact hinv.2.2⟩
    · injection ha with ha
      subst ha
      exact ⟨hinv.1, hinv.2.1, hinv.2.2⟩
  have hib : inv sb := by
    split at hb
    · obtain ⟨e1, e2, e3⟩ := State.move_coll_idx _ _ _ hb
      exact ⟨by rw [e1]; exact hia.1, by rw [e2]; exact hia.2.1,
        by rw [e3]; exact hia.2.2⟩
    · injection hb with hb
      subst hb
      exact hia
  have hic : inv sc := by
    split at hc
    · obtain ⟨e1, e2, e3⟩ := State.move_coll_idx _ _ _ hc
      exact ⟨by rw [e1]; exact hib.1, by rw [e2]; exact hib.2.1,
        by rw [e3]; exact hib.2.2⟩
    · injection hc with hc
      subst hc
      exact hib
  have hid : inv sd := by
    split at hd
    · exact State.finish_turn_inv _ _ hd ⟨hic.1, hic.2.1, hic.2.2⟩
    · injection hd with hd
      subst hd
      exact hic
  split at h
  · exact State.move_down_inv _ _ h ⟨hid.1, hid.2.1, hid.2.2⟩
  · injection h with h
    subst h
    exact hid

theorem State.handle_input_inv (s : State) (inp : Input) (s2 : State)
    (h : s.handle_input inp = some s2) (hinv : inv s) : inv s2 := by
  unfold State.handle_input at h
  split at h
  · exact State.game_handle_input_inv _ _ _ h hinv
  · injection h with h
    subst h
    unfold State.retry_handle_input
    split
    · exact State.change_screen_inv _ _ hinv
    · exact hinv
  · injection h with h
    subst h
    unfold State.pause_handle_input State.close_popup_screen
    split
    · exact ⟨hinv.1, hinv.2.1, hinv.2.2⟩
    · exact hinv

theorem State.tick_inv (s : State) (s2 : State)
    (h : s.tick = some s2) (hinv : inv s) : inv s2 := by
  unfold State.tick at h
  split at h
  · exact State.game_tick_inv _ _ h hinv
  · injection h with h
    subst h
    exact hinv
  · injection h with h
    subst h
    exact hinv

theorem State.new_inv (rng : Rng) : inv (State.new rng) :=
  State.game_enter_inv _

/-- C10: in every reachable state — `State::new` followed by any sequence
of `handle_input` and `tick` calls (`draw` takes `&self` and cannot write)
— `curr_tet_index` and `next_tet_index` are in `[0, 7)` and `curr_frame`
is in `[0, 4)`, so the array lookups of `current_frame()` and
`rotate_colliding_tetromino()` (and the next-piece preview lookup) never
index out of bounds. -/
theorem c10_reachable_indices_in_bounds (s : State) (hs : Reachable s) :
    inv s ∧
    s.current_frame.isSome ∧
    ((tetrominos.get? s.curr_tet_index).bind
      (fun t => t.get? s.next_frame)).isSome ∧
    (tetrominos.get? s.next_tet_index).isSome := by
  have hinv : inv s := by
    induction hs with
    | init rng => exact State.new_inv rng
    | handle t t2 inp hr hstep ih => exact State.handle_input_inv _ _ _ hstep ih
    | tick t t2 hr hstep ih => exact State.tick_inv _ _ hstep ih
  refine ⟨hinv, ?_, ?_, ?_⟩
  · unfold State.current_frame
    obtain ⟨t, ht, hlen⟩ := tetro_get _ hinv.1
    rw [ht]
    simp only [Option.some_bind]
    rw [List.get?_eq_getElem?,
      List.getElem?_eq_getElem (by rw [hlen]; exact hinv.2.2)]
    rfl
  · obtain ⟨t, ht, hlen⟩ := tetro_get _ hinv.1
    rw [ht]
    simp only [Option.some_bind]
    have hnf : s.next_frame < 4 := Nat.mod_lt _ (by norm_num)
    rw [List.get?_eq_getElem?,
      List.getElem?_eq_getElem (by rw [hlen]; exact hnf)]
    rfl
  · obtain ⟨t, ht, _⟩ := tetro_get _ hinv.2.1
    rw [ht]
    rfl


/-- C10 witness: the freshly created state. -/
theorem c10_reachable_indices_in_bounds_witness :
    inv (State.new rng0) ∧
    (State.new rng0).current_frame.isSome ∧
    ((tetrominos.get? (State.new rng0).curr_tet_index).bind
      (fun t => t.get? (State.new rng0).next_frame)).isSome ∧
    (tetrominos.get? (State.new rng0).next_tet_index).isSome :=
  c10_reachable_indices_in_bounds (State.new rng0) (Reachable.init rng0)

end R0t0
namespace R0t0

theorem getD_set (l : List Bool) (i : Nat) (b : Bool) (t : Nat) :
    (l.set i b).getD t false =
      if i = t ∧ i < l.length then b else l.getD t false := by
  rw [List.getD_eq_getElem?_getD, List.getD_eq_getElem?_getD, List.getElem?_set]
  by_cases h1 : i = t
  · subst h1
    by_cases h2 : i < l.length
    · simp [h2]
    · simp only [h2, if_false, and_false, Option.getD_none]
      rw [List.getElem?_eq_none (by omega)]
      rfl
  · simp [h1]

theorem copyRowAux_length (sq : List Bool) (src dst : Nat) :
    ∀ n, (copyRowAux sq src dst n).length = sq.length := by
  intro n
  induction n with
  | zero => rfl
  | succ k ih => simp only [copyRowAux, List.length_set, ih]

theorem copyRow_length (sq : List Bool) (src dst : Nat) :
    (copyRow sq src dst).length = sq.length := copyRowAux_length sq src dst 10

theorem zeroRowAux_length (sq : List Bool) (j : Nat) :
    ∀ n, (zeroRowAux sq j n).length = sq.length := by
  intro n
  induction n with
  | zero => rfl
  | succ k ih => simp only [zeroRowAux, List.length_set, ih]

theorem zeroRow_length (sq : List Bool) (j : Nat) :
    (zeroRow sq j).length = sq.length := zeroRowAux_length sq j 10

theorem copyRowAux_getD (sq : List Bool) (hlen : sq.length = 180)
    (src dst : Nat) (hne : src ≠ dst) (hdst : dst < 18) :
    ∀ n, n ≤ 10 → ∀ t, (copyRowAux sq src dst n).getD t false =
      if dst * 10 ≤ t ∧ t < dst * 10 + n then
        sq.getD (t - dst * 10 + src * 10) false
      else sq.getD t false := by
  intro n
  induction n with
  | zero =>
    intro hn t
    rw [if_neg (by omega : ¬ (dst * 10 ≤ t ∧ t < dst * 10 + 0))]
    rfl
  | succ k ih =>
    intro hn t
    simp only [copyRowAux]
    rw [getD_set, copyRowAux_length, hlen]
    have hread : (copyRowAux sq src dst k).getD (k + src * 10) false =
        sq.getD (k + src * 10) false := by
      rw [ih (by omega)]
      have : ¬ (dst * 10 ≤ k + src * 10 ∧ k + src * 10 < dst * 10 + k) := by
        rintro ⟨ha, hb⟩
        omega
      simp [this]
    by_cases hw : k + dst * 10 = t ∧ k + dst * 10 < 180
    · obtain ⟨hw1, hw2⟩ := hw
      subst hw1
      rw [if_pos ⟨rfl, hw2⟩, hread,
        if_pos (⟨by omega, by omega⟩ :
          dst * 10 ≤ k + dst * 10 ∧ k + dst * 10 < dst * 10 + (k + 1)),
        show k + dst * 10 - dst * 10 + src * 10 = k + src * 10 from by omega]
    · have hw2 : ¬ (k + dst * 10 = t) := by
        intro heq
        exact hw ⟨heq, by omega⟩
      simp only [hw, if_false]
      rw [ih (by omega)]
      by_cases ht : dst * 10 ≤ t ∧ t < dst * 10 + k
      · have ht2 : dst * 10 ≤ t ∧ t < dst * 10 + (k + 1) := by omega
        simp [ht, ht2]
      · have ht2 : ¬ (dst * 10 ≤ t ∧ t < dst * 10 + (k + 1)) := by
          rintro ⟨ha, hb⟩
          exact ht ⟨ha, by omega⟩
        simp [ht, ht2]

theorem row_copyRow (sq : List Bool) (hlen : sq.length = 180)
    (src dst : Nat) (hne : src ≠ dst) (hdst : dst < 18) (y : Nat) :
    row (copyRow sq src dst) y = if y = dst then row sq src else row sq y := by
  unfold row copyRow
  by_cases hy : y = dst
  · subst hy
    simp only [if_true]
    apply List.map_congr_left
    intro i hi
    have hi10 : i < 10 := List.mem_range.mp hi
    rw [copyRowAux_getD sq hlen src y hne hdst 10 (le_refl 10)]
    have hc : y * 10 ≤ y * 10 + i ∧ y * 10 + i < y * 10 + 10 := by omega
    rw [if_pos hc, show y * 10 + i - y * 10 + src * 10 = src * 10 + i from by omega]
  · simp only [hy, if_false]
    apply List.map_congr_left
    intro i hi
    have hi10 : i < 10 := List.mem_range.mp hi
    rw [copyRowAux_getD sq hlen src dst hne hdst 10 (le_refl 10)]
    have hc : ¬ (dst * 10 ≤ y * 10 + i ∧ y * 10 + i < dst * 10 + 10) := by
      rintro ⟨ha, hb⟩
      omega
    rw [if_neg hc]

theorem zeroRowAux_getD (sq : List Bool) (hlen : sq.length = 180) (j : Nat)
    (hj : j < 18) :
    ∀ n, n ≤ 10 → ∀ t, (zeroRowAux sq j n).getD t false =
      if j * 10 ≤ t ∧ t < j * 10 + n then false else sq.getD t false := by
  intro n
  induction n with
  | zero =>
    intro hn t
    rw [if_neg (by omega : ¬ (j * 10 ≤ t ∧ t < j * 10 + 0))]
    rfl
  | succ k ih =>
    intro hn t
    simp only [zeroRowAux]
    rw [getD_set, zeroRowAux_length, hlen]
    by_cases hw : k + j * 10 = t ∧ k + j * 10 < 180
    · obtain ⟨hw1, hw2⟩ := hw
      subst hw1
      rw [if_pos ⟨rfl, hw2⟩,
        if_pos (⟨by omega, by omega⟩ :
          j * 10 ≤ k + j * 10 ∧ k + j * 10 < j * 10 + (k + 1))]
    · rw [if_neg hw, ih (by omega)]
      by_cases ht : j * 10 ≤ t ∧ t < j * 10 + k
      · rw [if_pos ht, if_pos (by omega : j * 10 ≤ t ∧ t < j * 10 + (k + 1))]
      · rw [if_neg ht, if_neg (by omega : ¬ (j * 10 ≤ t ∧ t < j * 10 + (k + 1)))]

theorem row_zeroRow (sq : List Bool) (hlen : sq.length = 180) (j : Nat)
    (hj : j < 18) (y : Nat) :
    row (zeroRow sq j) y = if y = j then empty_row else row sq y := by
  unfold row zeroRow
  by_cases hy : y = j
  · subst hy
    rw [if_pos rfl]
    have : (List.range 10).map
        (fun i => (zeroRowAux sq y 10).getD (y * 10 + i) false) =
        (List.range 10).map (fun _ => false) := by
      apply List.map_congr_left
      intro i hi
      have hi10 : i < 10 := List.mem_range.mp hi
      rw [zeroRowAux_getD sq hlen y hj 10 (le_refl 10)]
      rw [if_pos (by omega : y * 10 ≤ y * 10 + i ∧ y * 10 + i < y * 10 + 10)]
    rw [this]
    rfl
  · rw [if_neg hy]
    apply List.map_congr_left
    intro i hi
    have hi10 : i < 10 := List.mem_range.mp hi
    rw [zeroRowAux_getD sq hlen j hj 10 (le_refl 10)]
    rw [if_neg (by rintro ⟨ha, hb⟩; omega :
      ¬ (j * 10 ≤ y * 10 + i ∧ y * 10 + i < j * 10 + 10))]

theorem zeroRows_foldl_length (l : List Nat) :
    ∀ sq : List Bool, (l.foldl zeroRow sq).length = sq.length := by
  induction l with
  | nil => intro sq; rfl
  | cons a rest ih =>
    intro sq
    simp only [List.foldl_cons, ih, zeroRow_length]

theorem row_zeroRows_foldl :
    ∀ (n a : Nat), a + n ≤ 18 → ∀ (sq : List Bool), sq.length = 180 →
      ∀ y, row ((List.range' a n).foldl zeroRow sq) y =
        if a ≤ y ∧ y < a + n then empty_row else row sq y := by
  intro n
  induction n with
  | zero =>
    intro a ha sq hlen y
    rw [if_neg (by omega : ¬ (a ≤ y ∧ y < a + 0))]
    rfl
  | succ k ih =>
    intro a ha sq hlen y
    rw [List.range'_succ, List.foldl_cons]
    rw [ih (a + 1) (by omega) (zeroRow sq a) (by rw [zeroRow_length, hlen]) y]
    rw [row_zeroRow sq hlen a (by omega) y]
    by_cases h1 : a + 1 ≤ y ∧ y < a + 1 + k
    · rw [if_pos h1, if_pos (by omega : a ≤ y ∧ y < a + (k + 1))]
    · rw [if_neg h1]
      by_cases h2 : y = a
      · rw [if_pos h2, if_pos (by omega : a ≤ y ∧ y < a + (k + 1))]
      · rw [if_neg h2, if_neg (by omega : ¬ (a ≤ y ∧ y < a + (k + 1)))]

theorem row_zeroRows (sq : List Bool) (hlen : sq.length = 180)
    (last first : Nat) (hfirst : first < 18) (y : Nat) :
    row (zeroRows sq last first) y =
      if last ≤ y ∧ y ≤ first then empty_row else row sq y := by
  unfold zeroRows
  by_cases hlf : last ≤ first
  · rw [row_zeroRows_foldl (first + 1 - last) last (by omega) sq hlen y]
    by_cases h : last ≤ y ∧ y < last + (first + 1 - last)
    · rw [if_pos h, if_pos (by omega : last ≤ y ∧ y ≤ first)]
    · rw [if_neg h, if_neg (by omega : ¬ (last ≤ y ∧ y ≤ first))]
  · rw [if_neg (by omega : ¬ (last ≤ y ∧ y ≤ first))]
    rw [(by omega : first + 1 - last = 0)]
    rfl

theorem all_map_id {α : Type} (l : List α) (f : α → Bool) :
    (l.map f).all id = l.all f := by
  induction l with
  | nil => rfl
  | cons a r ih => simp only [List.map_cons, List.all_cons, ih, id]

theorem is_line_filled_eq_row (sq : List Bool) (y : Nat) (hy : y < 18) :
    Field.is_line_filled ⟨sq⟩ (y : Int) = (row sq y).all id := by
  unfold Field.is_line_filled row
  rw [if_pos (by positivity : (0 : Int) ≤ (y : Int))]
  rw [Int.toNat_natCast]
  rw [if_pos hy]
  rw [all_map_id]

theorem is_line_filled_congr (sq sq2 : List Bool) (y : Nat) (hy : y < 18)
    (h : row sq y = row sq2 y) :
    Field.is_line_filled ⟨sq⟩ (y : Int) = Field.is_line_filled ⟨sq2⟩ (y : Int) := by
  rw [is_line_filled_eq_row sq y hy, is_line_filled_eq_row sq2 y hy, h]

theorem filter_partition (p : Nat → Bool) (l : List Nat) :
    (l.filter p).length + (l.filter (fun x => ! p x)).length = l.length := by
  induction l with
  | nil => rfl
  | cons a rest ih =>
    simp only [List.filter_cons]
    by_cases hp : p a = true
    · simp only [hp, Bool.not_true, Bool.false_eq_true, if_true, if_false,
        List.length_cons]
      omega
    · simp only [Bool.not_eq_true] at hp
      simp only [hp, Bool.not_false, Bool.false_eq_true, if_false, if_true,
        List.length_cons]
      omega

theorem zeroRows_length (sq : List Bool) (last first : Nat) :
    (zeroRows sq last first).length = sq.length := by
  unfold zeroRows
  rw [zeroRows_foldl_length]

theorem cntFilled_succ_filled (sq : List Bool) (r : Nat) (hr : r < 18)
    (h : Field.is_line_filled ⟨sq⟩ (r : Int) = true) :
    cntFilled sq r = cntFilled sq (r + 1) + 1 := by
  unfold cntFilled
  rw [(by omega : 18 - r = (18 - (r + 1)) + 1), List.range'_succ]
  simp only [List.filter_cons, h, if_true, List.length_cons]

theorem cntFilled_succ_not (sq : List Bool) (r : Nat) (hr : r < 18)
    (h : Field.is_line_filled ⟨sq⟩ (r : Int) = false) :
    cntFilled sq r = cntFilled sq (r + 1) := by
  unfold cntFilled
  rw [(by omega : 18 - r = (18 - (r + 1)) + 1), List.range'_succ]
  simp only [List.filter_cons, h, Bool.false_eq_true, if_false]

theorem keepRows_succ_filled (sq : List Bool) (r : Nat) (hr : r < 18)
    (h : Field.is_line_filled ⟨sq⟩ (r : Int) = true) :
    keepRows sq r = keepRows sq (r + 1) := by
  unfold keepRows
  rw [(by omega : 18 - r = (18 - (r + 1)) + 1), List.range'_succ]
  simp only [List.filter_cons, h, Bool.not_true, Bool.false_eq_true, if_false]

theorem keepRows_succ_not (sq : List Bool) (r : Nat) (hr : r < 18)
    (h : Field.is_line_filled ⟨sq⟩ (r : Int) = false) :
    keepRows sq r = r :: keepRows sq (r + 1) := by
  unfold keepRows
  rw [(by omega : 18 - r = (18 - (r + 1)) + 1), List.range'_succ]
  simp only [List.filter_cons, h, Bool.not_false, if_true]

theorem cntFilled_le (sq : List Bool) (r : Nat) : cntFilled sq r ≤ 18 - r := by
  unfold cntFilled
  have h := List.length_filter_le
    (fun (y : Nat) => Field.is_line_filled ⟨sq⟩ (y : Int))
    (List.range' r (18 - r))
  rw [List.length_range'] at h
  exact h

theorem cnt_keep_partition (sq : List Bool) (r : Nat) :
    cntFilled sq r + (keepRows sq r).length = 18 - r := by
  have h := filter_partition (fun (y : Nat) => Field.is_line_filled ⟨sq⟩ (y : Int))
    (List.range' r (18 - r))
  rw [List.length_range'] at h
  exact h

theorem cleanInv_base (sq : List Bool) (hlen : sq.length = 180) :
    CleanInv sq 17 ⟨sq, 17, 18, 0⟩ := by
  refine ⟨hlen, ?_, ?_, rfl, fun y hy => rfl, ?_⟩
  · show (0 : Int) = (cntFilled sq 18 : Int)
    rfl
  · show 17 = 17 + cntFilled sq 18
    rfl
  · intro m hm
    have h0 : (keepRows sq (17 + 1)).length = 0 := rfl
    omega

theorem cleanIter_inv (sq0 : List Bool) (q : Nat) (hq : q + 1 < 18)
    (st : CleanState) (hinv : CleanInv sq0 (q + 1) st) :
    CleanInv sq0 q (cleanIter st (q + 1)) := by
  obtain ⟨hlen, hfl, hfw, hlw, hA, hB⟩ := hinv
  have hrow : row st.squares (q + 1) = row sq0 (q + 1) := hA (q + 1) (le_refl _)
  have hfil : Field.is_line_filled ⟨st.squares⟩ ((q + 1 : Nat) : Int) =
      Field.is_line_filled ⟨sq0⟩ ((q + 1 : Nat) : Int) :=
    is_line_filled_congr _ _ (q + 1) hq hrow
  unfold cleanIter
  simp only [hfil]
  by_cases hf : Field.is_line_filled ⟨sq0⟩ ((q + 1 : Nat) : Int) = true
  · rw [if_pos hf]
    have hc := cntFilled_succ_filled sq0 (q + 1) hq hf
    have hk := keepRows_succ_filled sq0 (q + 1) hq hf
    refine ⟨hlen, ?_, ?_, ?_, ?_, ?_⟩
    · show st.filled_lines + 1 = (cntFilled sq0 (q + 1) : Int)
      rw [hc, hfl]
      push_cast
      ring
    · show st.first_write_line = q + cntFilled sq0 (q + 1)
      rw [hc]
      omega
    · show st.last_write_line - 1 = q + 1
      omega
    · intro y hy
      exact hA y (by omega)
    · intro m hm
      rw [hk] at hm ⊢
      rw [hc]
      rw [show q + 1 + (cntFilled sq0 (q + 1 + 1) + 1) + m
          = q + 1 + 1 + cntFilled sq0 (q + 1 + 1) + m from by omega]
      exact hB m hm
  · have hf0 : Field.is_line_filled ⟨sq0⟩ ((q + 1 : Nat) : Int) = false :=
      eq_false_of_ne_true hf
    rw [if_neg hf]
    have hc := cntFilled_succ_not sq0 (q + 1) hq hf0
    have hk := keepRows_succ_not sq0 (q + 1) hq hf0
    have hcle := cntFilled_le sq0 (q + 1 + 1)
    by_cases hs : st.last_write_line ≤ st.first_write_line
    · rw [if_pos hs]
      have hs1 : 1 ≤ cntFilled sq0 (q + 1 + 1) := by omega
      refine ⟨?_, ?_, ?_, ?_, ?_, ?_⟩
      · show (copyRow st.squares (q + 1) st.first_write_line).length = 180
        rw [copyRow_length]
        exact hlen
      · show st.filled_lines = (cntFilled sq0 (q + 1) : Int)
        rw [hc]
        exact hfl
      · show st.first_write_line - 1 = q + cntFilled sq0 (q + 1)
        rw [hc]
        omega
      · show st.last_write_line - 1 = q + 1
        omega
      · intro y hy
        show row (copyRow st.squares (q + 1) st.first_write_line) y = row sq0 y
        rw [hfw, row_copyRow st.squares hlen (q + 1)
          (q + 1 + cntFilled sq0 (q + 1 + 1)) (by omega) (by omega) y]
        rw [if_neg (by omega : ¬ y = q + 1 + cntFilled sq0 (q + 1 + 1))]
        exact hA y (by omega)
      · intro m hm
        rw [hk] at hm ⊢
        rw [hc]
        show row (copyRow st.squares (q + 1) st.first_write_line)
            (q + 1 + cntFilled sq0 (q + 1 + 1) + m) =
          row sq0 (((q + 1) :: keepRows sq0 (q + 1 + 1)).getD m 0)
        rw [hfw, row_copyRow st.squares hlen (q + 1)
          (q + 1 + cntFilled sq0 (q + 1 + 1)) (by omega) (by omega)
          (q + 1 + cntFilled sq0 (q + 1 + 1) + m)]
        cases m with
        | zero =>
          rw [if_pos (by omega), List.getD_cons_zero]
          exact hrow
        | succ m' =>
          rw [if_neg (by omega), List.getD_cons_succ]
          simp only [List.length_cons] at hm
          rw [show q + 1 + cntFilled sq0 (q + 1 + 1) + (m' + 1)
              = q + 1 + 1 + cntFilled sq0 (q + 1 + 1) + m' from by omega]
          exact hB m' (by omega)
    · rw [if_neg hs, if_pos (by omega : 0 < q + 1)]
      have hs0 : cntFilled sq0 (q + 1 + 1) = 0 := by omega
      refine ⟨hlen, ?_, ?_, rfl, ?_, ?_⟩
      · show st.filled_lines = (cntFilled sq0 (q + 1) : Int)
        rw [hc]
        exact hfl
      · show q + 1 - 1 = q + cntFilled sq0 (q + 1)
        rw [hc, hs0]
        omega
      · intro y hy
        exact hA y (by omega)
      · intro m hm
        rw [hk] at hm ⊢
        simp only [List.length_cons] at hm
        rw [hc, hs0]
        cases m with
        | zero =>
          rw [List.getD_cons_zero]
          rw [show q + 1 + 0 + 0 = q + 1 from by omega]
          exact hrow
        | succ m' =>
          rw [List.getD_cons_succ]
          rw [show q + 1 + 0 + (m' + 1)
              = q + 1 + 1 + cntFilled sq0 (q + 1 + 1) + m' from by omega]
          exact hB m' (by omega)

theorem cleanRun_inv (sq0 : List Bool) :
    ∀ n, n ≤ 17 → ∀ st, CleanInv sq0 n st →
      ∃ st1, CleanInv sq0 0 st1 ∧ cleanRun st (n + 1) = cleanIter st1 0 := by
  intro n
  induction n with
  | zero =>
    intro _ st h
    exact ⟨st, h, rfl⟩
  | succ q ih =>
    intro hn st h
    have h2 := cleanIter_inv sq0 q (by omega) st h
    obtain ⟨st1, h1, he⟩ := ih (by omega) (cleanIter st (q + 1)) h2
    exact ⟨st1, h1, he⟩

theorem filter_map_comm {α β : Type} (f : α → β) (p : β → Bool) (l : List α) :
    (l.map f).filter p = (l.filter (fun a => p (f a))).map f := by
  induction l with
  | nil => rfl
  | cons a r ih =>
    simp only [List.map_cons, List.filter_cons]
    by_cases h : p (f a) = true
    · simp only [h, if_true, List.map_cons, ih]
    · simp only [Bool.not_eq_true] at h
      simp only [h, Bool.false_eq_true, if_false, ih]

theorem keepRows_zero_eq (sq : List Bool) :
    keepRows sq 0 = (List.range 18).filter (fun y => ! (row sq y).all id) := by
  unfold keepRows
  rw [Nat.sub_zero, ← List.range_eq_range']
  apply List.filter_congr
  intro y hy
  rw [is_line_filled_eq_row sq y (List.mem_range.mp hy)]

theorem cntFilled_zero_eq (sq : List Bool) :
    cntFilled sq 0 = ((rows_of sq).filter (fun r => r.all id)).length := by
  unfold cntFilled rows_of
  rw [Nat.sub_zero, ← List.range_eq_range']
  rw [filter_map_comm (row sq) (fun r => r.all id) (List.range 18)]
  rw [List.length_map]
  have h : List.filter (fun (y : Nat) => Field.is_line_filled ⟨sq⟩ (y : Int))
        (List.range 18)
      = List.filter (fun a => (row sq a).all id) (List.range 18) :=
    List.filter_congr (fun y hy => is_line_filled_eq_row sq y (List.mem_range.mp hy))
  rw [h]

theorem clean_spec (sq0 : List Bool) (hlen : sq0.length = 180) :
    (Field.clean_filled_lines ⟨sq0⟩).2 = (cntFilled sq0 0 : Int) ∧
    (Field.clean_filled_lines ⟨sq0⟩).1.squares.length = 180 ∧
    ∀ y, y < 18 → row (Field.clean_filled_lines ⟨sq0⟩).1.squares y =
      (if y < cntFilled sq0 0 then empty_row
       else row sq0 ((keepRows sq0 0).getD (y - cntFilled sq0 0) 0)) := by
  obtain ⟨st1, hinv, hrun⟩ := cleanRun_inv sq0 17 (le_refl 17)
    ⟨sq0, 17, 18, 0⟩ (cleanInv_base sq0 hlen)
  have hrun18 : cleanRun ⟨sq0, 17, 18, 0⟩ 18 = cleanIter st1 0 := hrun
  have hcl : Field.clean_filled_lines ⟨sq0⟩ =
      (if (cleanIter st1 0).last_write_line ≤ (cleanIter st1 0).first_write_line
        then (⟨zeroRows (cleanIter st1 0).squares (cleanIter st1 0).last_write_line
            (cleanIter st1 0).first_write_line⟩,
          (cleanIter st1 0).filled_lines)
        else (⟨(cleanIter st1 0).squares⟩, (cleanIter st1 0).filled_lines)) := by
    unfold Field.clean_filled_lines
    rw [hrun18]
  obtain ⟨hlen1, hfl, hfw, hlw, hA, hB⟩ := hinv
  have hrow0 : row st1.squares 0 = row sq0 0 := hA 0 (le_refl 0)
  have hfil : Field.is_line_filled ⟨st1.squares⟩ ((0 : Nat) : Int) =
      Field.is_line_filled ⟨sq0⟩ ((0 : Nat) : Int) :=
    is_line_filled_congr _ _ 0 (by omega) hrow0
  have hcle := cntFilled_le sq0 (0 + 1)
  have hpart := cnt_keep_partition sq0 (0 + 1)
  by_cases hf : Field.is_line_filled ⟨sq0⟩ ((0 : Nat) : Int) = true
  · -- row 0 is filled: one more line counted, cursor closes at the top
    have hcnt := cntFilled_succ_filled sq0 0 (by omega) hf
    have hkeep := keepRows_succ_filled sq0 0 (by omega) hf
    have hst2 : cleanIter st1 0 =
        { st1 with last_write_line := st1.last_write_line - 1,
                   filled_lines := st1.filled_lines + 1 } := by
      unfold cleanIter
      simp only [hfil]
      rw [if_pos hf]
    have hguard : (cleanIter st1 0).last_write_line ≤
        (cleanIter st1 0).first_write_line := by
      rw [hst2]
      show st1.last_write_line - 1 ≤ st1.first_write_line
      omega
    have hpair : Field.clean_filled_lines ⟨sq0⟩ =
        (⟨zeroRows st1.squares (st1.last_write_line - 1) st1.first_write_line⟩,
          st1.filled_lines + 1) := by
      rw [hcl, if_pos hguard, hst2]
    refine ⟨?_, ?_, ?_⟩
    · rw [hpair]
      show st1.filled_lines + 1 = (cntFilled sq0 0 : Int)
      rw [hfl, hcnt]
      push_cast
      ring
    · rw [hpair]
      show (zeroRows st1.squares (st1.last_write_line - 1)
        st1.first_write_line).length = 180
      rw [zeroRows_length]
      exact hlen1
    · intro y hy
      rw [hpair]
      show row (zeroRows st1.squares (st1.last_write_line - 1)
          st1.first_write_line) y = _
      rw [hlw, hfw,
        row_zeroRows st1.squares hlen1 (0 + 1 - 1) (0 + cntFilled sq0 (0 + 1))
          (by omega) y]
      by_cases hy1 : y < cntFilled sq0 0
      · rw [if_pos (by omega : 0 + 1 - 1 ≤ y ∧ y ≤ 0 + cntFilled sq0 (0 + 1)),
          if_pos hy1]
      · rw [if_neg (by omega : ¬ (0 + 1 - 1 ≤ y ∧ y ≤ 0 + cntFilled sq0 (0 + 1))),
          if_neg hy1]
        have hm : y - cntFilled sq0 0 < (keepRows sq0 (0 + 1)).length := by
          omega
        have hBm := hB (y - cntFilled sq0 0) hm
        rw [show 0 + 1 + cntFilled sq0 (0 + 1) + (y - cntFilled sq0 0) = y
            from by omega] at hBm
        rw [hkeep]
        exact hBm
  · have hf0 : Field.is_line_filled ⟨sq0⟩ ((0 : Nat) : Int) = false :=
      eq_false_of_ne_true hf
    have hcnt := cntFilled_succ_not sq0 0 (by omega) hf0
    have hkeep := keepRows_succ_not sq0 0 (by omega) hf0
    by_cases hs : 1 ≤ cntFilled sq0 (0 + 1)
    · -- row 0 kept and copied into the hole above the compacted block
      have hst2 : cleanIter st1 0 =
          { st1 with squares := copyRow st1.squares 0 st1.first_write_line,
                     first_write_line := st1.first_write_line - 1,
                     last_write_line := st1.last_write_line - 1 } := by
        unfold cleanIter
        simp only [hfil]
        rw [if_neg hf,
          if_pos (show st1.last_write_line ≤ st1.first_write_line from by omega)]
      have hguard : (cleanIter st1 0).last_write_line ≤
          (cleanIter st1 0).first_write_line := by
        rw [hst2]
        show st1.last_write_line - 1 ≤ st1.first_write_line - 1
        omega
      have hpair : Field.clean_filled_lines ⟨sq0⟩ =
          (⟨zeroRows (copyRow st1.squares 0 st1.first_write_line)
              (st1.last_write_line - 1) (st1.first_write_line - 1)⟩,
            st1.filled_lines) := by
        rw [hcl, if_pos hguard, hst2]
      refine ⟨?_, ?_, ?_⟩
      · rw [hpair]
        show st1.filled_lines = (cntFilled sq0 0 : Int)
        rw [hfl, hcnt]
      · rw [hpair]
        show (zeroRows (copyRow st1.squares 0 st1.first_write_line)
          (st1.last_write_line - 1) (st1.first_write_line - 1)).length = 180
        rw [zeroRows_length, copyRow_length]
        exact hlen1
      · intro y hy
        rw [hpair]
        show row (zeroRows (copyRow st1.squares 0 st1.first_write_line)
            (st1.last_write_line - 1) (st1.first_write_line - 1)) y = _
        rw [hlw, hfw,
          row_zeroRows (copyRow st1.squares 0 (0 + cntFilled sq0 (0 + 1)))
            (by rw [copyRow_length]; exact hlen1) (0 + 1 - 1)
            (0 + cntFilled sq0 (0 + 1) - 1) (by omega) y,
          row_copyRow st1.squares hlen1 0 (0 + cntFilled sq0 (0 + 1))
            (by omega) (by omega) y]
        by_cases hy1 : y < cntFilled sq0 0
        · rw [if_pos (by omega :
            0 + 1 - 1 ≤ y ∧ y ≤ 0 + cntFilled sq0 (0 + 1) - 1), if_pos hy1]
        · rw [if_neg (by omega :
            ¬ (0 + 1 - 1 ≤ y ∧ y ≤ 0 + cntFilled sq0 (0 + 1) - 1)),
            if_neg hy1, hkeep]
          by_cases hy2 : y = 0 + cntFilled sq0 (0 + 1)
          · rw [if_pos hy2,
              show y - cntFilled sq0 0 = 0 from by omega, List.getD_cons_zero]
            exact hrow0
          · rw [if_neg hy2,
              show y - cntFilled sq0 0 = (y - cntFilled sq0 0 - 1) + 1
                from by omega, List.getD_cons_succ]
            have hm : y - cntFilled sq0 0 - 1 < (keepRows sq0 (0 + 1)).length := by
              omega
            have hBm := hB (y - cntFilled sq0 0 - 1) hm
            rw [show 0 + 1 + cntFilled sq0 (0 + 1) + (y - cntFilled sq0 0 - 1) = y
                from by omega] at hBm
            exact hBm
    · -- no line was filled at all: the field is left untouched
      have hs0 : cntFilled sq0 (0 + 1) = 0 := by omega
      have hst2 : cleanIter st1 0 = st1 := by
        unfold cleanIter
        simp only [hfil]
        rw [if_neg hf,
          if_neg (show ¬ st1.last_write_line ≤ st1.first_write_line
            from by omega),
          if_neg (lt_irrefl 0)]
      have hpair : Field.clean_filled_lines ⟨sq0⟩ =
          (⟨st1.squares⟩, st1.filled_lines) := by
        rw [hcl, hst2,
          if_neg (show ¬ st1.last_write_line ≤ st1.first_write_line
            from by omega)]
      have hcnt0 : cntFilled sq0 0 = 0 := by rw [hcnt]; exact hs0
      refine ⟨?_, ?_, ?_⟩
      · rw [hpair]
        show st1.filled_lines = (cntFilled sq0 0 : Int)
        rw [hfl, hcnt]
      · rw [hpair]
        exact hlen1
      · intro y hy
        rw [hpair]
        show row st1.squares y = _
        rw [if_neg (by omega : ¬ y < cntFilled sq0 0), hkeep, hcnt0,
          Nat.sub_zero]
        cases y with
        | zero =>
          rw [List.getD_cons_zero]
          exact hrow0
        | succ m =>
          rw [List.getD_cons_succ]
          have hm : m < (keepRows sq0 (0 + 1)).length := by
            omega
          have hBm := hB m hm
          rw [show 0 + 1 + cntFilled sq0 (0 + 1) + m = m + 1
              from by omega] at hBm
          exact hBm

theorem getD_replicate_of_lt {α : Type} (n i : Nat) (a d : α) (h : i < n) :
    (List.replicate n a).getD i d = a := by
  rw [List.getD_eq_getElem _ _ (by rw [List.length_replicate]; exact h)]
  exact List.getElem_replicate a _

theorem rows_of_length (sq : List Bool) : (rows_of sq).length = 18 := by
  unfold rows_of
  rw [List.length_map, List.length_range]

theorem rows_of_getD (sq : List Bool) (y : Nat) (hy : y < 18) :
    (rows_of sq).getD y [] = row sq y := by
  unfold rows_of
  rw [List.getD_eq_getElem _ []
    (by rw [List.length_map, List.length_range]; exact hy)]
  rw [List.getElem_map, List.getElem_range]

theorem ext_rows (L1 L2 : List (List Bool)) (h1 : L1.length = 18)
    (h2 : L2.length = 18) (h : ∀ y, y < 18 → L1.getD y [] = L2.getD y []) :
    L1 = L2 := by
  apply List.ext_getElem (by omega)
  intro n hn1 hn2
  have hn : n < 18 := by omega
  have he := h n hn
  rw [List.getD_eq_getElem L1 [] (by omega),
    List.getD_eq_getElem L2 [] (by omega)] at he
  exact he

set_option maxRecDepth 100000 in
set_option maxHeartbeats 4000000 in
/-- C1: `Field::clean_filled_lines` (`field.rs` lines 61-100; the
`blocks.rs` lines 264-300 copy computes the same field state) returns the
number of fully filled rows, and leaves the field in exactly the state the
claim describes: the rows that are not fully filled, in their original
top-to-bottom order, re-stacked at the bottom of the 10x18 grid, with the
vacated rows at the top filled with empty cells; in particular on the
all-empty field it returns 0 and changes nothing, and on the all-filled
field it returns 18 and leaves every cell empty. -/
theorem c1_clean_filled_lines (f : Field) (hlen : f.squares.length = 180) :
    ((Field.clean_filled_lines f).2 =
      (((rows_of f.squares).filter (fun r => r.all id)).length : Int) ∧
     (Field.clean_filled_lines f).1.squares.length = 180 ∧
     rows_of (Field.clean_filled_lines f).1.squares =
       compact_rows (rows_of f.squares)) ∧
    (Field.clean_filled_lines Field.new).2 = 0 ∧
    (Field.clean_filled_lines Field.new).1.squares = Field.new.squares ∧
    (Field.clean_filled_lines field_full).2 = 18 ∧
    (Field.clean_filled_lines field_full).1.squares =
      List.replicate 180 false := by
  obtain ⟨sq⟩ := f
  have hlen2 : sq.length = 180 := hlen
  show ((Field.clean_filled_lines ⟨sq⟩).2 =
      (((rows_of sq).filter (fun r => r.all id)).length : Int) ∧
     (Field.clean_filled_lines ⟨sq⟩).1.squares.length = 180 ∧
     rows_of (Field.clean_filled_lines ⟨sq⟩).1.squares =
       compact_rows (rows_of sq)) ∧
    (Field.clean_filled_lines Field.new).2 = 0 ∧
    (Field.clean_filled_lines Field.new).1.squares = Field.new.squares ∧
    (Field.clean_filled_lines field_full).2 = 18 ∧
    (Field.clean_filled_lines field_full).1.squares =
      List.replicate 180 false
  refine ⟨?_, by decide, by decide, by decide, by decide⟩
  obtain ⟨hsnd, hflen, hrows⟩ := clean_spec sq hlen2
  have hK := cnt_keep_partition sq 0
  have hK18 : cntFilled sq 0 + (keepRows sq 0).length = 18 := by
    omega
  have hL : (rows_of sq).filter (fun r => ! r.all id) =
      (keepRows sq 0).map (row sq) := by
    rw [keepRows_zero_eq]
    unfold rows_of
    rw [filter_map_comm (row sq) (fun r => ! r.all id) (List.range 18)]
  have hcomp : ∀ y, y < 18 →
      (compact_rows (rows_of sq)).getD y [] =
      (if y < cntFilled sq 0 then empty_row
       else row sq ((keepRows sq 0).getD (y - cntFilled sq 0) 0)) := by
    intro y hy
    unfold compact_rows
    rw [hL, List.length_map]
    by_cases hy1 : y < cntFilled sq 0
    · rw [if_pos hy1]
      rw [List.getD_append _ _ _ y (by rw [List.length_replicate]; omega)]
      exact getD_replicate_of_lt _ y empty_row [] (by omega)
    · rw [if_neg hy1]
      rw [List.getD_append_right _ _ _ y (by rw [List.length_replicate]; omega)]
      rw [List.length_replicate]
      rw [show y - (18 - (keepRows sq 0).length)
          = y - cntFilled sq 0 from by omega]
      have hk2 : y - cntFilled sq 0 < (keepRows sq 0).length := by
        omega
      rw [List.getD_eq_getElem _ [] (by rw [List.length_map]; exact hk2)]
      rw [List.getElem_map,
        ← List.getD_eq_getElem (keepRows sq 0) 0 hk2]
  refine ⟨?_, ?_, ?_⟩
  · rw [show (((rows_of sq).filter (fun r => r.all id)).length : Int)
        = (cntFilled sq 0 : Int) from by rw [cntFilled_zero_eq]]
    exact hsnd
  · exact hflen
  · apply ext_rows _ _ (rows_of_length _) ?_ ?_
    · unfold compact_rows
      rw [List.length_append, List.length_replicate, hL, List.length_map]
      omega
    · intro y hy
      rw [rows_of_getD _ y hy, hcomp y hy]
      exact hrows y hy

set_option maxRecDepth 100000 in
set_option maxHeartbeats 4000000 in
theorem c1_clean_filled_lines_witness :
    field_full.squares.length = 180 ∧
    (((Field.clean_filled_lines field_full).2 =
       (((rows_of field_full.squares).filter (fun r => r.all id)).length :
         Int) ∧
      (Field.clean_filled_lines field_full).1.squares.length = 180 ∧
      rows_of (Field.clean_filled_lines field_full).1.squares =
        compact_rows (rows_of field_full.squares)) ∧
     (Field.clean_filled_lines Field.new).2 = 0 ∧
     (Field.clean_filled_lines Field.new).1.squares = Field.new.squares ∧
     (Field.clean_filled_lines field_full).2 = 18 ∧
     (Field.clean_filled_lines field_full).1.squares =
       List.replicate 180 false) :=
  ⟨by decide, c1_clean_filled_lines field_full (by decide)⟩

end R0t0
